import Mathlib

/-!
Verification of the daily-status-collection core of the AI_daily_tasks repository.

The embedding models, as pure Lean functions over explicit state:
  * the quality gate (`app/services/gemini_service.py`,
    `GeminiService.analyze_response_quality_async`, plus the bounded-retry logic of
    `app/services/bot_service.py`, `BotService._process_daily_plan`),
  * the summary composer (`app/services/scheduler.py`,
    `generate_and_send_summary_for_group`),
  * the per-group daily cycle (`app/services/scheduler.py`:
    `send_morning_questions_to_group`, `process_user_response`,
    `generate_summary_after_timeout_for_group`; `app/services/bot_service.py`:
    `handle_user_message_sync`, `handle_change_command`, `_process_daily_plan`).

Texts are `List Char` (Python `len`/slicing count code points, as `List Char` does).
External network results (the Gemini judge and summarizer) are `Option` parameters:
`none` models an unavailable backend, `some s` a backend that returned text `s`.
The database session is modelled as an explicit state record; SQLAlchemy queries
become list lookups.  The columns `users.id`, `users.user_id` and `users.username`
are primary key resp. `unique=True` in `app/models/user.py`, so updating every row
matching the key is the same as updating the first matching row.
-/

/-- Texts: Python strings as lists of code points. -/
abbrev Str := List Char

/-- Conversion of a Lean string literal to `Str`. -/
def lit (s : String) : Str := s.data

/-- Python whitespace for `str.strip()` (the ASCII whitespace characters; the
claims never exercise exotic Unicode whitespace). -/
def isPySpace (c : Char) : Bool :=
  c == ' ' || c == '\t' || c == '\n' || c == '\r' || c == '\x0b' || c == '\x0c'

/-- Python `s.strip()`: drop leading and trailing whitespace. -/
def pyStrip (s : Str) : Str :=
  ((s.dropWhile isPySpace).reverse.dropWhile isPySpace).reverse

/-- Python truthiness of an optional string column: `None` and `""` are falsy. -/
def pyTruthy : Option Str → Bool
  | none => false
  | some s => s ≠ []

/-- Python `f"{first} {last}".strip()` as built for `full_name` when
`first_name` is truthy (`bot_service.py`, several places). -/
def mkFullName (first : Str) (lastN : Option Str) : Str :=
  pyStrip (first ++ [' '] ++ lastN.getD [])

/-- Python `str.replace(pat, '')` (removal of every occurrence), fuel-based so
that it reduces by kernel evaluation.  `removeAll` instantiates the fuel with
the length of the string, which always suffices. -/
def removeAllAux (pat : Str) : Nat → Str → Str
  | _, [] => []
  | 0, s => s
  | f + 1, c :: rest =>
    if pat ≠ [] && pat.isPrefixOf (c :: rest) then
      removeAllAux pat f ((c :: rest).drop pat.length)
    else
      c :: removeAllAux pat f rest

/-- Python `s.replace(pat, '')`. -/
def removeAll (pat s : Str) : Str := removeAllAux pat s.length s

/-- Python `str.lower()` (ASCII case folding; the only claim-relevant uses
compare against the all-lowercase markers of the judge protocol). -/
def pyLower (s : Str) : Str := s.map Char.toLower

/-- `GeminiService._post_process_text` (gemini_service.py:43-64): strip all
markdown asterisks from a generated text (on the empty text it returns it
unchanged, which coincides with filtering). -/
def postProcessText (s : Str) : Str := s.filter (fun c => c ≠ '*')

/-- Result record of `analyze_response_quality_async` (gemini_service.py:114-213). -/
structure QualityAnalysis where
  is_acceptable : Bool
  feedback : Str
  reason : Str
deriving DecidableEq, Repr

/-- The hard-coded rejection for too-short answers (gemini_service.py:137-142). -/
def tooShortFeedback : Str :=
  lit "🤔 Ваш ответ слишком краткий. Пожалуйста, опишите более подробно, над какими конкретными задачами вы планируете работать."

/-- One step of the verdict-parsing loop of `analyze_response_quality_async`
(gemini_service.py:183-195): the accumulator is
(`acceptable`, `feedback`, `reason`); later lines overwrite earlier ones. -/
def parseLineStep (acc : Option Bool × Str × Str) (line : Str) : Option Bool × Str × Str :=
  let t := pyStrip line
  if (lit "ACCEPTABLE:").isPrefixOf t then
    let v := pyLower (pyStrip (removeAll (lit "ACCEPTABLE:") t))
    (some (v == lit "да" || v == lit "yes" || v == lit "true"), acc.2.1, acc.2.2)
  else if (lit "FEEDBACK:").isPrefixOf t then
    (acc.1, pyStrip (removeAll (lit "FEEDBACK:") t), acc.2.2)
  else if (lit "REASON:").isPrefixOf t then
    (acc.1, acc.2.1, pyStrip (removeAll (lit "REASON:") t))
  else acc

/-- The whole parsing loop over the lines of the judge output. -/
def parseAnalysisLines (lines : List Str) : Option Bool × Str × Str :=
  lines.foldl parseLineStep (none, [], [])

/-- The verdict extracted from a (post-processed) judge output `r`:
`analysis_result.strip().split('\n')` then the parsing loop.  `none` means the
output could not be parsed into an `ACCEPTABLE` verdict. -/
def judgeVerdict (r : Str) : Option Bool := (parseAnalysisLines ((pyStrip r).splitOn '\n')).1

/-- `GeminiService.analyze_response_quality_async` (gemini_service.py:114-213).
`judge` is the raw text returned by the external judge backend for the quality
prompt (`none` when the API call failed); the code post-processes it through
`generate_text_async`.  Exceptions during analysis are the `analysis_error`
fail-open branch; in this pure model they cannot occur and the `none` case
already covers the API failure modes. -/
def analyzeResponseQuality (judge : Option Str) (text : Str) : QualityAnalysis :=
  if text = [] ∨ (pyStrip text).length < 5 then
    ⟨false, tooShortFeedback, lit "too_short"⟩
  else
    match judge.map postProcessText with
    | none => ⟨true, lit "✅ Ваш план принят!", lit "gemini_unavailable"⟩
    | some r =>
      if r = [] then ⟨true, lit "✅ Ваш план принят!", lit "gemini_unavailable"⟩
      else
        let parsed := parseAnalysisLines ((pyStrip r).splitOn '\n')
        match parsed.1 with
        | none => ⟨true, lit "✅ Ваш план принят!", lit "parse_error"⟩
        | some b =>
          ⟨b,
           if parsed.2.1 ≠ [] then parsed.2.1
           else if b then lit "✅ Отличный план!" else lit "🤔 Пожалуйста, уточните ваш план.",
           if b then [] else parsed.2.2⟩

/-- A row of the `users` table (app/models/user.py).  `dbId` is the primary key
`id`; `uid` is the Telegram id column `user_id` (unique, nullable, stored as a
decimal string in the DB and always produced from an integer Telegram id, so it
is modelled as `Option Nat`). -/
structure DbUser where
  dbId : Nat
  uid : Option Nat
  username : Option Str
  full_name : Option Str
  is_active : Bool
  is_verified : Bool
  is_group_member : Bool
  last_response : Option Str
  has_responded_today : Bool
  activation_token : Option Str
  response_retry_count : Nat
  group_id : Option Nat
deriving DecidableEq, Repr

/-- A row of the `groups` table (app/models/group.py), restricted to the columns
the modelled functions read; `activation_token` is the group's unique,
non-nullable activation token (group.py:59). -/
structure DbGroup where
  id : Nat
  name : Str
  admin_username : Option Str
  is_active : Bool
  activation_token : Str
deriving DecidableEq, Repr

/-- Python `str(n)` for a natural number, fuel-based so that it reduces by
kernel evaluation; `decimalStr` instantiates the fuel with `n`, which always
suffices since `n / 10 < n` for `n > 0`. -/
def decimalDigitsAux : Nat → Nat → Str
  | _, 0 => []
  | 0, _ => []
  | f + 1, m + 1 => decimalDigitsAux f ((m + 1) / 10) ++ [Nat.digitChar ((m + 1) % 10)]

/-- Python `str(n)`. -/
def decimalStr (n : Nat) : Str := if n = 0 then ['0'] else decimalDigitsAux n n

/-- Display name used throughout the scheduler: `full_name` if truthy, else
`"@" + username` if truthy, else `"ID:" + user_id`
(scheduler.py:287-294 and identical blocks elsewhere). -/
def displayName (u : DbUser) : Str :=
  if pyTruthy u.full_name then u.full_name.getD []
  else if pyTruthy u.username then lit "@" ++ u.username.getD []
  else lit "ID:" ++ (match u.uid with | some n => decimalStr n | none => lit "None")

/-- Whether a user counts as a responder when the summary is composed:
`user.has_responded_today and user.last_response` (scheduler.py:296). -/
def isResponder (u : DbUser) : Bool := u.has_responded_today && pyTruthy u.last_response

/-- The `responses` list built in `generate_and_send_summary_for_group`
(scheduler.py:287-298): one `"<name>: <text>"` line per responder, in order. -/
def responderLines (users : List DbUser) : List Str :=
  (users.filter isResponder).map (fun u => displayName u ++ lit ": " ++ u.last_response.getD [])

/-- The `not_responded_users` display-name list (scheduler.py:299-300). -/
def notRespondedNames (users : List DbUser) : List Str :=
  (users.filter (fun u => !isResponder u)).map displayName

/-- The `responded_users` display-name list (scheduler.py:296-298). -/
def respondedNames (users : List DbUser) : List Str :=
  (users.filter isResponder).map displayName

/-- The deterministic fallback report built when the summarizer returned no text
(scheduler.py:342-353): a fixed banner, the plain concatenation of the
responder lines (or a fixed phrase when there are none), and the non-responder
list when non-empty. -/
def fallbackReport (users : List DbUser) : Str :=
  lit "⚠️ Не удалось сгенерировать сводку через Gemini. Базовый отчет:\n\n" ++
  (if responderLines users ≠ [] then List.intercalate (lit "\n") (responderLines users)
   else lit "Никто из команды не предоставил планы на сегодня.") ++
  (if notRespondedNames users ≠ [] then
    lit "\n\nНе ответили: " ++ List.intercalate (lit ", ") (notRespondedNames users)
   else [])

/-- The header prepended to every summary message (scheduler.py:356-361);
`today` is `datetime.now().strftime('%d/%m/%Y')`. -/
def summaryHeader (g : DbGroup) (today : Str) (users : List DbUser) : Str :=
  lit "📊 Утренняя сводка планов группы \x27" ++ g.name ++ lit "\x27\n" ++
  lit "📅 Дата: " ++ today ++ lit "\n" ++
  lit "👥 Участников: " ++ decimalStr users.length ++ lit "\n" ++
  lit "✅ Ответили: " ++ decimalStr (respondedNames users).length ++ lit "\n" ++
  lit "⏳ Не ответили: " ++ decimalStr (notRespondedNames users).length ++ lit "\n\n"

/-- The chunking of a long message:
`parts = [admin_message[i:i+4000] for i in range(0, len(admin_message), 4000)]`
(scheduler.py:367).  Fuel-based so that it reduces by kernel evaluation;
`chunks` instantiates the fuel with the length of the message, which always
suffices since every round consumes at least one character. -/
def chunkAux : Nat → Str → List Str
  | 0, _ => []
  | f + 1, s => if s = [] then [] else s.take 4000 :: chunkAux f (s.drop 4000)

/-- The `parts` list of scheduler.py:367. -/
def chunks (s : Str) : List Str := chunkAux s.length s

/-- The continuation marker prepended to every part after the first:
`f"(продолжение {i+1})\n"` (scheduler.py:372). -/
def contMarker (n : Nat) : Str := lit "(продолжение " ++ decimalStr n ++ lit ")\n"

/-- The sequential delivery loop over the enumerated parts
(scheduler.py:368-372): part `0` is sent as is, part `i > 0` is sent with the
continuation marker `i+1` prepended. -/
def deliverAux : Nat → List Str → List Str
  | _, [] => []
  | i, p :: rest => (if i = 0 then p else contMarker (i + 1) ++ p) :: deliverAux (i + 1) rest

/-- The messages sent for a list of parts, in sending order. -/
def deliverParts (parts : List Str) : List Str := deliverAux 0 parts

/-- The message-sending tail of `generate_and_send_summary_for_group`
(scheduler.py:364-374): a message over 4000 characters is split into parts and
the parts are sent sequentially; otherwise the message is sent whole. -/
def sendSummaryMessages (adminMsg : Str) : List Str :=
  if 4000 < adminMsg.length then deliverParts (chunks adminMsg) else [adminMsg]

/-- Outcome of `generate_and_send_summary_for_group`: the composed
`admin_message` (if composition was reached) and the messages sent to the
admin chat, in order. -/
structure SummaryOutcome where
  report : Option Str
  sent : List Str
deriving DecidableEq, Repr

/-- `generate_and_send_summary_for_group(group, users)` (scheduler.py:243-386).
`allUsers` models the `users` table queried for the administrator row;
`genResult` is what `gemini_service.generate_text_async(prompt)` returned for
the summary prompt (`none`: API failure).  The function aborts — sending
nothing — when the group has no truthy `admin_username`, when no user row
matches that username or the matching row has no Telegram id, and when `users`
yields neither responders nor non-responders (scheduler.py:269-281, 302-304). -/
def generateAndSendSummaryForGroup (g : DbGroup) (users : List DbUser)
    (allUsers : List DbUser) (genResult : Option Str) (today : Str) : SummaryOutcome :=
  if !pyTruthy g.admin_username then ⟨none, []⟩
  else if !(((allUsers.find? (fun u => u.username == g.admin_username)).map
      (fun u => u.uid.isSome)).getD false) then ⟨none, []⟩
  else if responderLines users = [] ∧ notRespondedNames users = [] then ⟨none, []⟩
  else
    let summary :=
      match genResult with
      | some s => if s ≠ [] then s else fallbackReport users
      | none => fallbackReport users
    let adminMsg := summaryHeader g today users ++ summary
    ⟨some adminMsg, sendSummaryMessages adminMsg⟩

/-- The inbound Telegram sender (`message.from_user`): id, optional username,
optional first/last name. -/
structure TgUser where
  id : Nat
  username : Option Str
  firstName : Option Str
  lastName : Option Str
deriving DecidableEq, Repr

/-- A dispatch of the summary composer: the group, the `users` list handed to
`generate_and_send_summary_for_group`, and whether the invocation came from the
timeout job (`generate_summary_after_timeout_for_group`) or from the
early-completion check in `process_user_response`. -/
structure DispatchRec where
  groupId : Nat
  users : List DbUser
  viaTimeout : Bool
deriving DecidableEq, Repr

/-- The state the scheduler and bot service act on: the two DB tables, the
pending one-shot summary jobs (`summary_group_<id>_after_1hour`, at most one per
group since APScheduler job ids are unique), the log of prompts sent at cycle
start, the `user_responses` history table, the dispatch log, and — as recorded
ghost data for comparison with the specification — the roster computed at each
cycle start (the list the prompts were fanned out to). -/
structure SchedState where
  users : List DbUser
  groups : List DbGroup
  timeoutJobs : List Nat
  prompts : List (Nat × Nat)
  snapshots : List (Nat × List DbUser)
  history : List (Nat × Str)
  dispatches : List DispatchRec
deriving DecidableEq, Repr

/-- Update every row matching `p` (see the module comment: the keys used are
unique columns, so this coincides with updating the first match). -/
def updateWhere (p : DbUser → Bool) (f : DbUser → DbUser) (users : List DbUser) : List DbUser :=
  users.map (fun u => if p u then f u else u)

/-- The live membership query used at cycle start, in the completion check and
in the timeout handler (scheduler.py:93-98, 507-512, 190-195): users of the
group that are active, verified and team members — evaluated on the current
table, not on any snapshot. -/
def liveRoster (users : List DbUser) (g : Nat) : List DbUser :=
  users.filter (fun u => u.group_id == some g && u.is_active && u.is_verified && u.is_group_member)

/-- The per-day reset applied at cycle start to every row of the group
(scheduler.py:85-90): it filters on `group_id` only, not on
active/verified/member status. -/
def resetUserForDay (g : Nat) (u : DbUser) : DbUser :=
  if u.group_id == some g then
    { u with has_responded_today := false, last_response := none, response_retry_count := 0 }
  else u

/-- `send_morning_questions_to_group(group_id)` (scheduler.py:53-136): look up
the active group; reset the day flags of every row of the group and commit;
query the live roster; if it is empty return (the reset stays committed, no
prompt is sent, no timeout job is scheduled); otherwise send the prompt to each
roster member that has a Telegram id (per-member failures only log), schedule
the one-shot summary job, and record the roster that was fanned out to. -/
def sendMorningQuestionsToGroup (g : Nat) (st : SchedState) : SchedState :=
  match st.groups.find? (fun gr => gr.id == g && gr.is_active) with
  | none => st
  | some _ =>
    let users1 := st.users.map (resetUserForDay g)
    let roster := liveRoster users1 g
    let st1 := { st with users := users1 }
    if roster = [] then st1
    else
      { st1 with
        prompts := st1.prompts ++ roster.filterMap (fun u => u.uid.map (fun i => (g, i))),
        snapshots := st1.snapshots ++ [(g, roster)],
        timeoutJobs := if st1.timeoutJobs.contains g then st1.timeoutJobs else st1.timeoutJobs ++ [g] }

/-- `process_user_response(user, response_text)` (scheduler.py:433-548): find
the row by Telegram id (no check of verification, activity, team membership or
any resolution state); set `has_responded_today`/`last_response`; update
`username` if the sender has one and it is free, and `full_name` if the sender
has a first name; append the raw submission to the `user_responses` history;
then, if the row belongs to a group that exists, run the early-completion
check against the live roster: when everyone active has responded and the
roster is non-empty, remove the pending summary job if it is still scheduled
(best effort) and dispatch the summary with the live roster.

`respStoreFn` is the row update of scheduler.py:458-485: mark the row as
responded with the submitted text, take the sender's username when it is truthy
and no other row holds it, and refresh `full_name` when the sender has a first
name. -/
def respStoreFn (sender : TgUser) (text : Str) (st : SchedState) (dbUser : DbUser)
    (u : DbUser) : DbUser :=
  { u with
    has_responded_today := true,
    last_response := some text,
    username :=
      if pyTruthy sender.username then
        if (st.users.find? (fun v => v.username == sender.username && !(v.dbId == dbUser.dbId))).isNone
        then sender.username else dbUser.username
      else dbUser.username,
    full_name :=
      if pyTruthy sender.firstName then some (mkFullName (sender.firstName.getD []) sender.lastName)
      else dbUser.full_name }

def processUserResponse (sender : TgUser) (text : Str) (st : SchedState) : SchedState :=
  match st.users.find? (fun u => u.uid == some sender.id) with
  | none => st
  | some dbUser =>
    let users1 := updateWhere (fun u => u.dbId == dbUser.dbId)
      (respStoreFn sender text st dbUser) st.users
    let st1 := { st with users := users1, history := st.history ++ [(dbUser.dbId, text)] }
    match dbUser.group_id with
    | none => st1
    | some g =>
      match st1.groups.find? (fun gr => gr.id == g) with
      | none => st1
      | some _ =>
        let activeUsers := liveRoster st1.users g
        let responded := activeUsers.filter (fun u => u.has_responded_today)
        if responded.length == activeUsers.length && 0 < activeUsers.length then
          { st1 with timeoutJobs := st1.timeoutJobs.erase g,
                     dispatches := st1.dispatches ++ [⟨g, activeUsers, false⟩] }
        else st1

/-- `generate_summary_after_timeout_for_group(group_id)` (scheduler.py:162-218):
look up the active group; query the live roster; if it is empty return without
dispatching; otherwise dispatch the summary with the live roster (in a worker
thread). -/
def generateSummaryAfterTimeoutForGroup (g : Nat) (st : SchedState) : SchedState :=
  match st.groups.find? (fun gr => gr.id == g && gr.is_active) with
  | none => st
  | some _ =>
    let activeUsers := liveRoster st.users g
    if activeUsers = [] then st
    else { st with dispatches := st.dispatches ++ [⟨g, activeUsers, true⟩] }

/-- `BotService._process_daily_plan(db_user, text, ...)` (bot_service.py:517-681).
`dbUser` is the session row the caller fetched (with its profile updates already
applied); `judge` is the raw judge-backend result for this text.
Editing mode (the `activation_token == "editing_mode"` flag set by `/change`)
replaces the plan unconditionally, then clears the flag and the retry counter.
A user who has responded and has retry count 0 only gets an
"already recorded" reply plus a soft retry increment.  Otherwise the quality
gate runs only while `response_retry_count < 3`: a rejection increments the
counter and stores nothing; an acceptance (or exhausted retries) stores the
response via `process_user_response` and resets the counter to 0. -/
def processDailyPlan (dbUser : DbUser) (sender : TgUser) (text : Str) (judge : Option Str)
    (st : SchedState) : SchedState :=
  if dbUser.activation_token == some (lit "editing_mode") then
    let st1 := processUserResponse sender text st
    let users2 := updateWhere (fun u => u.dbId == dbUser.dbId)
      (fun u => { u with activation_token := none, response_retry_count := 0 }) st1.users
    { st1 with users := users2 }
  else if dbUser.has_responded_today && dbUser.response_retry_count == 0 then
    let users2 := updateWhere (fun u => u.dbId == dbUser.dbId)
      (fun u => { u with response_retry_count := u.response_retry_count + 1 }) st.users
    { st with users := users2 }
  else if dbUser.response_retry_count < 3 ∧ (analyzeResponseQuality judge text).is_acceptable = false then
    let users2 := updateWhere (fun u => u.dbId == dbUser.dbId)
      (fun u => { u with response_retry_count := u.response_retry_count + 1 }) st.users
    { st with users := users2 }
  else
    let st1 := processUserResponse sender text st
    let users2 := updateWhere (fun u => u.dbId == dbUser.dbId)
      (fun u => { u with response_retry_count := 0 }) st1.users
    { st1 with users := users2 }

/-- A fresh autoincrement primary key for an inserted user row. -/
def freshId (users : List DbUser) : Nat :=
  users.foldr (fun u m => max u.dbId m) 0 + 1

/-- Python `text.split(' ', 1)`: `some rest` when the text has a space (`rest`
is everything after the first one, possibly empty), `none` otherwise
(bot_service.py:167-168). -/
def splitRest : Str → Option Str
  | [] => none
  | c :: rest => if c == ' ' then some rest else splitRest rest

/-- The token-less `/start` branch for a sender that is unknown or unverified
(bot_service.py:191-247): a pending row holding the sender's username without a
Telegram id (an admin record) is claimed — verified, activated, explicitly not
a team member, profile refreshed; otherwise a fresh verified, active,
non-team-member row without a group is inserted with the sender's username
taken verbatim.  The insert is guarded by the unique constraints on `user_id`
and `username` (user.py:52-53): when the sender's Telegram id is already in the
table (an unverified row reaches this branch) or their username is held by any
row, the source's `commit` raises `IntegrityError`, the outer handler catches
it and nothing is persisted. -/
def startPendingOrNew (sender : TgUser) (st : SchedState) : SchedState :=
  match (if pyTruthy sender.username then
      st.users.find? (fun v => v.username == sender.username && v.uid == none) else none) with
  | some pend =>
    let users1 := updateWhere (fun u => u.dbId == pend.dbId)
      (fun u =>
        { u with
          uid := some sender.id,
          is_verified := true,
          is_active := true,
          is_group_member := false,
          full_name := if pyTruthy sender.firstName then
            some (mkFullName (sender.firstName.getD []) sender.lastName) else u.full_name })
      st.users
    { st with users := users1 }
  | none =>
    if (st.users.find? (fun v => v.uid == some sender.id)).isSome
        || (pyTruthy sender.username
              && (st.users.find? (fun v => v.username == sender.username)).isSome) then st
    else
      let row : DbUser :=
        { dbId := freshId st.users, uid := some sender.id, username := sender.username,
          full_name := if pyTruthy sender.firstName then
            some (mkFullName (sender.firstName.getD []) sender.lastName) else none,
          is_active := true, is_verified := true, is_group_member := false,
          last_response := none, has_responded_today := false, activation_token := none,
          response_retry_count := 0, group_id := none }
      { st with users := st.users ++ [row] }

/-- Token-less `/start` (bot_service.py:175-247): an already verified sender is
only greeted (the reply dereferences the sender's group and the outer handler
swallows the `AttributeError` when there is none — no state change either
way); an unknown or unverified sender goes through the pending-or-new flow. -/
def startNoToken (sender : TgUser) (st : SchedState) : SchedState :=
  match st.users.find? (fun u => u.uid == some sender.id) with
  | some u => if u.is_verified then st else startPendingOrNew sender st
  | none => startPendingOrNew sender st

/-- Group lookup for an activation token (bot_service.py:283-315): the active
group holding the token, with the legacy `"group_activation"` token falling
back to the first active group. -/
def tokenGroup (tok : Str) (groups : List DbGroup) : Option DbGroup :=
  match groups.find? (fun gr => gr.activation_token == tok && gr.is_active) with
  | some gr => some gr
  | none =>
    if tok == lit "group_activation" then groups.find? (fun gr => gr.is_active) else none

/-- `BotService._activate_user_with_token` (bot_service.py:256-415).  With a
valid token: an already verified sender (found by Telegram id) is only greeted;
an unverified row found by Telegram id is verified and moved into the group
(`is_group_member` and `is_active` untouched), taking the sender's username
when no other row with a Telegram id holds it — the source's
`User.user_id != str(id)` comparison is SQL, so rows with a NULL `user_id` do
not match it, and when such a pending row holds the username the `commit`
violates the unique constraint, is rolled back by the function's own handler
and nothing changes; a pending row holding the sender's username without a
Telegram id is claimed into the group as a non-member; otherwise a fresh row is
inserted: verified, team member, in the group, `is_active` by column default
True (user.py:54), username only if free. -/
def activateUserWithToken (tok : Str) (sender : TgUser) (st : SchedState) : SchedState :=
  match tokenGroup tok st.groups with
  | none => st
  | some gr =>
    match st.users.find? (fun u => u.uid == some sender.id) with
    | some ex =>
      if ex.is_verified then st
      else
        let userTaken := pyTruthy sender.username &&
          (st.users.find? (fun v =>
            v.username == sender.username && v.uid.isSome && !(v.uid == some sender.id))).isSome
        let wantName := pyTruthy sender.username && !userTaken
        if wantName && (st.users.find? (fun v =>
            v.username == sender.username && v.uid == none)).isSome then st
        else
          let users1 := updateWhere (fun u => u.dbId == ex.dbId)
            (fun u =>
              { u with
                is_verified := true,
                activation_token := none,
                group_id := some gr.id,
                username := if wantName then sender.username else u.username,
                full_name := if pyTruthy sender.firstName then
                  some (mkFullName (sender.firstName.getD []) sender.lastName) else u.full_name })
            st.users
          { st with users := users1 }
    | none =>
      match (if pyTruthy sender.username then
          st.users.find? (fun v => v.username == sender.username && v.uid == none) else none) with
      | some pend =>
        let users1 := updateWhere (fun u => u.dbId == pend.dbId)
          (fun u =>
            { u with
              uid := some sender.id,
              is_verified := true,
              activation_token := none,
              group_id := some gr.id,
              is_group_member := false,
              full_name := if pyTruthy sender.firstName then
                some (mkFullName (sender.firstName.getD []) sender.lastName) else u.full_name })
          st.users
        { st with users := users1 }
      | none =>
        let userTaken := pyTruthy sender.username &&
          (st.users.find? (fun v =>
            v.username == sender.username && v.uid.isSome && !(v.uid == some sender.id))).isSome
        let row : DbUser :=
          { dbId := freshId st.users, uid := some sender.id,
            username := if pyTruthy sender.username && !userTaken then sender.username else none,
            full_name := if pyTruthy sender.firstName then
              some (mkFullName (sender.firstName.getD []) sender.lastName) else none,
            is_active := true, is_verified := true, is_group_member := true,
            last_response := none, has_responded_today := false, activation_token := none,
            response_retry_count := 0, group_id := some gr.id }
        { st with users := st.users ++ [row] }

/-- `BotService._handle_start_command` (bot_service.py:147-254): the part of the
text after the first space is the activation token; a truthy (non-empty) token
goes through the token activation, anything else through the token-less
flow. -/
def handleStartCommand (sender : TgUser) (text : Str) (st : SchedState) : SchedState :=
  match splitRest text with
  | some tok => if tok == [] then startNoToken sender st else activateUserWithToken tok sender st
  | none => startNoToken sender st

/-- `BotService.handle_user_message_sync(message, bot)` (bot_service.py:41-145)
for a private-chat text message.  A `/start`-prefixed text branches into the
activation flow (`_handle_start_command`), which can create or activate user
rows — including a fresh verified, active team member of a group.
An unknown sender gets an activation hint (no state change); an unverified
sender gets a reminder (no state change); then the profile columns are
refreshed and committed, an inactive sender is turned away (profile refresh
kept), and finally the text is processed as the daily plan. -/
def handleUserMessageSync (sender : TgUser) (text : Str) (judge : Option Str)
    (st : SchedState) : SchedState :=
  if (lit "/start").isPrefixOf text then handleStartCommand sender text st
  else
    match st.users.find? (fun u => u.uid == some sender.id) with
    | none => st
    | some dbUser =>
      if !dbUser.is_verified then st
      else
        let newUsername : Option Str :=
          if pyTruthy sender.username && !(sender.username == dbUser.username) then
            if (st.users.find? (fun u => u.username == sender.username && !(u.dbId == dbUser.dbId))).isNone
            then sender.username else dbUser.username
          else dbUser.username
        let newFullName : Option Str :=
          if pyTruthy sender.firstName then some (mkFullName (sender.firstName.getD []) sender.lastName)
          else dbUser.full_name
        let dbUser1 := { dbUser with username := newUsername, full_name := newFullName }
        let users1 := updateWhere (fun u => u.dbId == dbUser.dbId)
          (fun u => { u with username := newUsername, full_name := newFullName }) st.users
        let st1 := { st with users := users1 }
        if !dbUser1.is_active then st1
        else processDailyPlan dbUser1 sender text judge st1

/-- `BotService.handle_change_command(message, bot)` (bot_service.py:417-515):
only a known, verified, active sender with a truthy recorded plan gets the
`editing_mode` flag (stored in the repurposed `activation_token` column). -/
def handleChangeCommand (sender : TgUser) (st : SchedState) : SchedState :=
  match st.users.find? (fun u => u.uid == some sender.id) with
  | none => st
  | some u =>
    if !u.is_verified then st
    else if !u.is_active then st
    else if !(u.has_responded_today && pyTruthy u.last_response) then st
    else
      let users1 := updateWhere (fun v => v.dbId == u.dbId)
        (fun v => { v with activation_token := some (lit "editing_mode") }) st.users
      { st with users := users1 }

/-- The events that drive one group's daily cycle.  `start` is the registry
timer firing (`send_morning_questions_to_group`); `message` is an inbound
private text with the judge-backend result for it; `changeCmd` is `/change`;
`timeout` is the one-shot summary job firing — APScheduler runs a `date` job
exactly once and only while it is scheduled, so the firing consumes the job and
a `timeout` for a group with no pending job is a no-op; `setActive` models the
external admin layer (the dashboard / API endpoints) toggling a member's
`is_active` column mid-cycle. -/
inductive SchedEvent where
  | start (g : Nat)
  | message (sender : TgUser) (text : Str) (judge : Option Str)
  | changeCmd (sender : TgUser)
  | timeout (g : Nat)
  | setActive (uid : Nat) (b : Bool)
deriving DecidableEq, Repr

/-- One atomic event step. -/
def stepEvent (st : SchedState) : SchedEvent → SchedState
  | .start g => sendMorningQuestionsToGroup g st
  | .message s t j => handleUserMessageSync s t j st
  | .changeCmd s => handleChangeCommand s st
  | .timeout g =>
    if st.timeoutJobs.contains g then
      generateSummaryAfterTimeoutForGroup g { st with timeoutJobs := st.timeoutJobs.erase g }
    else st
  | .setActive uid b =>
    let users1 := updateWhere (fun u => u.uid == some uid) (fun u => { u with is_active := b }) st.users
    { st with users := users1 }

/-- A sequence of events. -/
def runTrace (st : SchedState) (evs : List SchedEvent) : SchedState := evs.foldl stepEvent st

/-- Modelled from the spec: roster completion relative to the snapshot taken at
`Start` (the spec fixes the roster at `Start` for the lifetime of the cycle):
every member of the roster recorded at the latest `Start` of the group has
responded in the current table. -/
def rosterCompleteSpec (st : SchedState) (g : Nat) : Bool :=
  match ((st.snapshots.filter (fun p => p.1 == g)).getLast?) with
  | none => false
  | some (_, roster) =>
    roster.all (fun u =>
      (((st.users.find? (fun v => v.dbId == u.dbId)).map (fun v => v.has_responded_today)).getD false))

/-- Fixture: a roster member of group 1. -/
def userA : DbUser :=
  { dbId := 1, uid := some 10, username := none, full_name := none, is_active := true,
    is_verified := true, is_group_member := true, last_response := none,
    has_responded_today := false, activation_token := none, response_retry_count := 0,
    group_id := some 1 }

/-- Fixture: a second roster member of group 1. -/
def userB : DbUser := { userA with dbId := 2, uid := some 20 }

/-- Fixture: a verified, active user of group 1 that is not a team member
(`is_group_member = False`), hence not in the roster. -/
def userC : DbUser := { userA with dbId := 3, uid := some 30, is_group_member := false }

/-- Fixture: group 1. -/
def grp1 : DbGroup := { id := 1, name := lit "Команда", admin_username := some (lit "boss"), is_active := true, activation_token := lit "tok1" }

/-- Fixture: Telegram senders for the fixture users. -/
def tgA : TgUser := { id := 10, username := none, firstName := none, lastName := none }

/-- Fixture sender for `userB`. -/
def tgB : TgUser := { id := 20, username := none, firstName := none, lastName := none }

/-- Fixture sender for `userC`. -/
def tgC : TgUser := { id := 30, username := none, firstName := none, lastName := none }

/-- Fixture: a Telegram sender unknown to the users table. -/
def tgNew : TgUser := { id := 50, username := none, firstName := none, lastName := none }

/-- Fixture: a qualifying plan text (length ≥ 5 after stripping). -/
def planText : Str := lit "работаю над проектом"

/-- Fixture: initial state with `userA`, `userB` in group 1. -/
def stAB : SchedState :=
  { users := [userA, userB], groups := [grp1], timeoutJobs := [], prompts := [],
    snapshots := [], history := [], dispatches := [] }

/-- Fixture: initial state with roster member `userA` and non-member `userC`. -/
def stAC : SchedState :=
  { users := [userA, userC], groups := [grp1], timeoutJobs := [], prompts := [],
    snapshots := [], history := [], dispatches := [] }

/-- Fixture: a concrete over-long report for the C9 witness. -/
def longReport : Str := List.replicate 4001 'a'

/-- Fixture: the administrator row for group 1 (username `boss`, not a team
member). -/
def adminRow : DbUser :=
  { dbId := 9, uid := some 99, username := some (lit "boss"), full_name := none,
    is_active := true, is_verified := true, is_group_member := false, last_response := none,
    has_responded_today := false, activation_token := none, response_retry_count := 0,
    group_id := none }

/-- Fixture: `userA` after an accepted response. -/
def userAResp : DbUser := { userA with has_responded_today := true, last_response := some planText }

/-- Fixture: initial state with only the non-member `userC` linked to group 1. -/
def stC : SchedState :=
  { users := [userC], groups := [grp1], timeoutJobs := [], prompts := [],
    snapshots := [], history := [], dispatches := [] }

/-- Fixture: `userA` with its retries exhausted. -/
def userARetry3 : DbUser := { userA with response_retry_count := 3 }

/-- Fixture: state holding only the retry-exhausted `userA`. -/
def stRetry3 : SchedState :=
  { users := [userARetry3], groups := [grp1], timeoutJobs := [], prompts := [],
    snapshots := [], history := [], dispatches := [] }

/-- The response-relevant projection of a user row: primary key, responded
flag, current response, retry counter and edit flag. -/
def userRespondProj (u : DbUser) : Nat × Bool × Option Str × Nat × Option Str :=
  (u.dbId, u.has_responded_today, u.last_response, u.response_retry_count, u.activation_token)

/-- The response-relevant view of the whole state: per-row response data plus
history, dispatch log, pending jobs, prompts and snapshots.  An inbound event
that leaves this view unchanged has stored no response and triggered no
resolution. -/
def respondView (st : SchedState) :
    List (Nat × Bool × Option Str × Nat × Option Str) × List (Nat × Str) × List DispatchRec
      × List Nat × List (Nat × Nat) × List (Nat × List DbUser) :=
  (st.users.map userRespondProj, st.history, st.dispatches, st.timeoutJobs, st.prompts, st.snapshots)

/-- Fixture: a verified but inactive user linked to group 1. -/
def userUnv : DbUser := { userA with dbId := 4, uid := some 40, is_verified := false }

/-- Fixture: state holding only the unverified `userUnv`. -/
def stUnv : SchedState :=
  { users := [userUnv], groups := [grp1], timeoutJobs := [], prompts := [],
    snapshots := [], history := [], dispatches := [] }

/-- Fixture: the two-member state with the summary job for group 1 pending. -/
def stJob : SchedState := { stAB with timeoutJobs := [1] }

/-- Number of dispatches in the log that were triggered for group `g` by the
timeout job. -/
def timeoutDispatchCount (g : Nat) (st : SchedState) : Nat :=
  (st.dispatches.filter (fun d => d.groupId == g && d.viaTimeout)).length

/-- 1 when the one-shot summary job of group `g` is pending, else 0. -/
def jobFlag (g : Nat) (st : SchedState) : Nat := if g ∈ st.timeoutJobs then 1 else 0

/-- Number of `start g` events (cycle starts of group `g`) in an event list. -/
def startCount (g : Nat) (evs : List SchedEvent) : Nat :=
  (evs.filter (fun e => e == SchedEvent.start g)).length

/-- Number of dispatches in the log for group `g`, by whichever trigger. -/
def groupDispatchCount (g : Nat) (st : SchedState) : Nat :=
  (st.dispatches.filter (fun d => d.groupId == g)).length

/-- Whether an event can mutate a group's membership: an `is_active` toggle by
the external admin layer, or an inbound `/start` text, whose activation flow
can create or activate a verified, active team member of a group. -/
def touchesMembership : SchedEvent → Bool
  | .setActive _ _ => true
  | .message _ t _ => (lit "/start").isPrefixOf t
  | _ => false

/-- The two summary buckets cover `users`: if both are empty, so is `users`. -/
theorem filter_both_nil {p : DbUser → Bool} {l : List DbUser}
    (h1 : l.filter p = []) (h2 : l.filter (fun u => !p u) = []) : l = [] := by
  cases l with
  | nil => rfl
  | cons a t =>
    by_cases hp : p a
    · rw [List.filter_cons_of_pos hp] at h1
      exact absurd h1 (List.cons_ne_nil _ _)
    · rw [List.filter_cons_of_pos (by simp [hp])] at h2
      exact absurd h2 (List.cons_ne_nil _ _)

/-- Membership in an `updateWhere` result comes from a source row, either
updated (when it matches) or untouched. -/
theorem mem_updateWhere {p : DbUser → Bool} {f : DbUser → DbUser} {l : List DbUser} {u : DbUser}
    (h : u ∈ updateWhere p f l) :
    ∃ v ∈ l, (p v = true ∧ u = f v) ∨ (p v = false ∧ u = v) := by
  unfold updateWhere at h
  rcases List.mem_map.mp h with ⟨v, hv, he⟩
  by_cases hp : p v
  · exact ⟨v, hv, Or.inl ⟨hp, by rw [← he, if_pos hp]⟩⟩
  · exact ⟨v, hv, Or.inr ⟨by simpa using hp, by rw [← he, if_neg hp]⟩⟩

/-- C6: every submission whose trimmed length is below 5 characters is rejected
by the quality gate with the fixed "too short" feedback and reason, and the
external judge result is never consulted (the result is the same for every
`judge` value, so no judge call can influence it). -/
theorem quality_gate_too_short_rejects_without_judge (judge : Option Str) (text : Str)
    (h : (pyStrip text).length < 5) :
    analyzeResponseQuality judge text = ⟨false, tooShortFeedback, lit "too_short"⟩ := by
  unfold analyzeResponseQuality
  rw [if_pos (Or.inr h)]

/-- Witness for C6: the three-character text "ok" is rejected as too short even
though the judge, had it been asked, would have accepted. -/
theorem quality_gate_too_short_witness :
    (pyStrip (lit "ok")).length < 5 ∧
      analyzeResponseQuality (some (lit "ACCEPTABLE: да")) (lit "ok")
        = ⟨false, tooShortFeedback, lit "too_short"⟩ :=
  ⟨by decide, quality_gate_too_short_rejects_without_judge _ _ (by decide)⟩

/-- C7: for a text that passes the deterministic length pre-check, a judge
backend that is unavailable (`none`), or whose output post-processes to the
empty text, or whose output yields no `ACCEPTABLE:` verdict when parsed,
results in acceptance — the gate fails open and never blocks on judge
failure. -/
theorem quality_gate_fails_open_on_judge_failure (judge : Option Str) (text : Str)
    (hne : text ≠ []) (hlen : 5 ≤ (pyStrip text).length)
    (hfail : judge = none ∨
      ∃ r, judge = some r ∧ (postProcessText r = [] ∨ judgeVerdict (postProcessText r) = none)) :
    (analyzeResponseQuality judge text).is_acceptable = true := by
  have hcond : ¬(text = [] ∨ (pyStrip text).length < 5) := by
    rintro (h | h)
    · exact hne h
    · omega
  rcases hfail with h | ⟨r, hr, hcase⟩
  · subst h
    unfold analyzeResponseQuality
    rw [if_neg hcond]
    rfl
  · subst hr
    unfold analyzeResponseQuality
    rw [if_neg hcond]
    simp only [Option.map_some']
    by_cases h0 : postProcessText r = []
    · simp [h0]
    · rcases hcase with h1 | h1
      · exact absurd h1 h0
      · unfold judgeVerdict at h1
        simp [h0, h1]

/-- Witness for C7: a five-character-plus text with a judge output that
contains no `ACCEPTABLE:` line is accepted. -/
theorem quality_gate_fails_open_witness :
    (lit "работаю над проектом" ≠ []) ∧ 5 ≤ (pyStrip (lit "работаю над проектом")).length ∧
      (analyzeResponseQuality (some (lit "какая-то невнятная фраза")) (lit "работаю над проектом")).is_acceptable = true :=
  ⟨by decide, by decide,
    quality_gate_fails_open_on_judge_failure _ _ (by decide) (by decide)
      (Or.inr ⟨_, rfl, Or.inr (by decide)⟩)⟩

/-- Rejoining the parts reproduces the whole message (the fuel argument always
dominates the length, so `chunks` satisfies this with fuel `s.length`). -/
theorem chunkAux_join (f : Nat) : ∀ s : Str, s.length ≤ f → (chunkAux f s).flatten = s := by
  induction f with
  | zero =>
    intro s h
    have : s = [] := List.eq_nil_of_length_eq_zero (Nat.le_zero.mp h)
    subst this; rfl
  | succ f ih =>
    intro s h
    by_cases hs : s = []
    · subst hs; rfl
    · rw [chunkAux, if_neg hs, List.flatten_cons, ih (s.drop 4000) ?_, List.take_append_drop]
      have h1 : 1 ≤ s.length := Nat.one_le_iff_ne_zero.mpr (fun hc => hs (List.eq_nil_of_length_eq_zero hc))
      simp only [List.length_drop]
      omega

/-- Every raw part produced by the chunking has at most 4000 characters. -/
theorem chunkAux_mem_length (f : Nat) : ∀ (s : Str) (p : Str), p ∈ chunkAux f s → p.length ≤ 4000 := by
  induction f with
  | zero => intro s p hp; simp [chunkAux] at hp
  | succ f ih =>
    intro s p hp
    by_cases hs : s = []
    · subst hs; simp [chunkAux] at hp
    · rw [chunkAux, if_neg hs] at hp
      rcases List.mem_cons.mp hp with h | h
      · subst h
        simp only [List.length_take]
        omega
      · exact ih _ _ h

/-- The number of parts never exceeds the fuel. -/
theorem chunkAux_count_le (f : Nat) : ∀ s : Str, (chunkAux f s).length ≤ f := by
  induction f with
  | zero => intro s; simp [chunkAux]
  | succ f ih =>
    intro s
    by_cases hs : s = []
    · subst hs; simp [chunkAux]
    · rw [chunkAux, if_neg hs]
      simpa using ih (s.drop 4000)

/-- A non-empty message yields at least one part. -/
theorem chunks_ne_nil (s : Str) (h : s ≠ []) : chunks s ≠ [] := by
  unfold chunks
  have h1 : 1 ≤ s.length := Nat.one_le_iff_ne_zero.mpr (fun hc => h (List.eq_nil_of_length_eq_zero hc))
  match hl : s.length with
  | 0 => omega
  | f + 1 => rw [chunkAux, if_neg h]; exact List.cons_ne_nil _ _

/-- The delivery loop sends exactly one message per part. -/
theorem deliverAux_length (ps : List Str) : ∀ i : Nat, (deliverAux i ps).length = ps.length := by
  induction ps with
  | nil => intro i; rfl
  | cons p rest ih => intro i; simp [deliverAux, ih]

/-- Bounding the decimal numeral: a number below `10 ^ k` prints in at most `k`
digits. -/
theorem decimalDigitsAux_length (f : Nat) :
    ∀ m k, m ≤ f → m < 10 ^ k → (decimalDigitsAux f m).length ≤ k := by
  induction f with
  | zero =>
    intro m k hm _
    have : m = 0 := Nat.le_zero.mp hm
    subst this; simp [decimalDigitsAux]
  | succ f ih =>
    intro m k hm hk
    match m with
    | 0 => simp [decimalDigitsAux]
    | m + 1 =>
      match k with
      | 0 =>
        simp only [pow_zero, Nat.lt_one_iff] at hk
        omega
      | k + 1 =>
        rw [decimalDigitsAux, List.length_append]
        have h1 : (m + 1) / 10 ≤ f := by
          have := Nat.div_lt_self (Nat.succ_pos m) (by norm_num : 1 < 10)
          omega
        have h2 : (m + 1) / 10 < 10 ^ k := by
          rw [Nat.div_lt_iff_lt_mul (by norm_num : 0 < 10)]
          calc m + 1 < 10 ^ (k + 1) := hk
            _ = 10 ^ k * 10 := by ring
        have := ih ((m + 1) / 10) k h1 h2
        simp only [List.length_cons, List.length_nil]
        omega

/-- `decimalStr n` prints in at most `k` digits for `n < 10 ^ k`, `k ≥ 1`. -/
theorem decimalStr_length_le (n k : Nat) (h1 : n < 10 ^ k) (h2 : 1 ≤ k) :
    (decimalStr n).length ≤ k := by
  unfold decimalStr
  split
  · simpa using h2
  · exact decimalDigitsAux_length n n k le_rfl h1

/-- Length of a continuation marker: the fixed text plus the numeral. -/
theorem contMarker_length (n : Nat) : (contMarker n).length = 15 + (decimalStr n).length := by
  have h1 : (lit "(продолжение ").length = 13 := by decide
  have h2 : (lit ")\n").length = 2 := by decide
  simp only [contMarker, List.length_append, h1, h2]
  omega

/-- Every message produced by the delivery loop stays within 4026 characters
provided each part is within 4000 and the numerals involved print in at most
11 digits. -/
theorem deliverAux_mem_length (N : Nat) (hN : ∀ n, n ≤ N + 1 → (decimalStr n).length ≤ 11) :
    ∀ (ps : List Str) (i : Nat), i + ps.length ≤ N →
      (∀ p ∈ ps, p.length ≤ 4000) → ∀ m ∈ deliverAux i ps, m.length ≤ 4026 := by
  intro ps
  induction ps with
  | nil => intro i _ _ m hm; simp [deliverAux] at hm
  | cons p rest ih =>
    intro i hi hp m hm
    rw [deliverAux] at hm
    rcases List.mem_cons.mp hm with h | h
    · subst h
      split
      · have := hp p (List.mem_cons_self _ _)
        omega
      · rw [List.length_append, contMarker_length]
        have hd : (decimalStr (i + 1)).length ≤ 11 := by
          apply hN
          simp only [List.length_cons] at hi
          omega
        have := hp p (List.mem_cons_self _ _)
        omega
    · apply ih (i + 1) ?_ (fun q hq => hp q (List.mem_cons_of_mem _ hq)) m h
      simp only [List.length_cons] at hi
      omega

/-- C9: when the composed report exceeds the 4000-character threshold, the
sending step splits it into raw parts of at most 4000 characters whose
concatenation in order is exactly the report, sends one message per part in
that order (part `i > 0` carrying its continuation marker), and every message
actually sent stays within Telegram's single-message limit of 4096 characters
(the bound `10 ^ 10` on the report length keeps the continuation numerals
within 11 digits; it is astronomically above any report the composer can
build). -/
theorem long_report_chunked_within_limit (report : Str)
    (hlong : 4000 < report.length) (hbound : report.length ≤ 10 ^ 10) :
    sendSummaryMessages report = deliverParts (chunks report) ∧
    (chunks report).flatten = report ∧
    (∀ p ∈ chunks report, p.length ≤ 4000) ∧
    (sendSummaryMessages report).length = (chunks report).length ∧
    sendSummaryMessages report ≠ [] ∧
    (∀ m ∈ sendSummaryMessages report, m.length ≤ 4096) := by
  have hne : report ≠ [] := by
    intro hc
    rw [hc] at hlong
    simp at hlong
  have hsend : sendSummaryMessages report = deliverParts (chunks report) := by
    unfold sendSummaryMessages
    rw [if_pos hlong]
  have hlen : (sendSummaryMessages report).length = (chunks report).length := by
    rw [hsend]; exact deliverAux_length _ 0
  refine ⟨hsend, chunkAux_join _ _ le_rfl, fun p hp => chunkAux_mem_length _ _ p hp, hlen, ?_, ?_⟩
  · intro hc
    have h0 : (chunks report).length = 0 := by rw [← hlen, hc]; rfl
    exact chunks_ne_nil report hne (List.eq_nil_of_length_eq_zero h0)
  · intro m hm
    rw [hsend] at hm
    have hcount : (chunks report).length ≤ 10 ^ 10 :=
      le_trans (chunkAux_count_le _ _) hbound
    have h4026 : m.length ≤ 4026 := by
      apply deliverAux_mem_length (10 ^ 10) ?_ (chunks report) 0 (by omega)
        (fun p hp => chunkAux_mem_length _ _ p hp) m hm
      intro n hn
      apply decimalStr_length_le n 11 ?_ (by norm_num)
      calc n ≤ 10 ^ 10 + 1 := hn
        _ < 10 ^ 11 := by norm_num
    omega


/-- Witness for C9: a 4001-character report is indeed split, and the theorem
applies to it. -/
theorem long_report_chunked_witness :
    4000 < longReport.length ∧ longReport.length ≤ 10 ^ 10 ∧
      sendSummaryMessages longReport = deliverParts (chunks longReport) :=
  ⟨by unfold longReport; rw [List.length_replicate]; omega,
   by unfold longReport; rw [List.length_replicate]; norm_num,
   (long_report_chunked_within_limit longReport
      (by unfold longReport; rw [List.length_replicate]; omega)
      (by unfold longReport; rw [List.length_replicate]; norm_num)).1⟩

/-- The summary header always contains its fixed banner, so it is never empty. -/
theorem summaryHeader_pos (g : DbGroup) (today : Str) (users : List DbUser) :
    0 < (summaryHeader g today users).length := by
  have h0 : 0 < (lit "📊 Утренняя сводка планов группы \x27").length := by decide
  unfold summaryHeader
  simp only [List.length_append]
  omega

/-- Sending a non-empty message always produces at least one message. -/
theorem sendSummaryMessages_ne_nil (msg : Str) (h : msg ≠ []) : sendSummaryMessages msg ≠ [] := by
  unfold sendSummaryMessages
  split
  · intro hc
    have h0 : (deliverParts (chunks msg)).length = 0 := by rw [hc]; rfl
    unfold deliverParts at h0
    rw [deliverAux_length (chunks msg) 0] at h0
    exact chunks_ne_nil msg h (List.eq_nil_of_length_eq_zero h0)
  · simp

/-- C8: for a non-empty `users` list (any non-`Empty` resolution hands the
non-empty live roster to the composer) and a resolvable administrator (the
group names an admin username and a user row with a Telegram id carries it),
a summarizer that is unavailable (`none`) or returns no text results in the
deterministic fallback report — header plus the plain concatenation of
responder lines plus the non-responder list — being composed and sent to the
administrator: the sent batch is exactly the chunked fallback report and is
never empty. -/
theorem summarizer_failure_fallback_delivered (g : DbGroup) (users allUsers : List DbUser)
    (genResult : Option Str) (today : Str)
    (hadmin : pyTruthy g.admin_username = true)
    (hfind : ((allUsers.find? (fun u => u.username == g.admin_username)).map
        (fun u => u.uid.isSome)).getD false = true)
    (husers : users ≠ [])
    (hgen : genResult = none ∨ genResult = some []) :
    generateAndSendSummaryForGroup g users allUsers genResult today
        = ⟨some (summaryHeader g today users ++ fallbackReport users),
           sendSummaryMessages (summaryHeader g today users ++ fallbackReport users)⟩ ∧
    sendSummaryMessages (summaryHeader g today users ++ fallbackReport users) ≠ [] := by
  have hcover : ¬ (responderLines users = [] ∧ notRespondedNames users = []) := by
    rintro ⟨h1, h2⟩
    apply husers
    apply filter_both_nil (p := isResponder)
    · unfold responderLines at h1
      exact List.map_eq_nil_iff.mp h1
    · unfold notRespondedNames at h2
      exact List.map_eq_nil_iff.mp h2
  have hE : generateAndSendSummaryForGroup g users allUsers genResult today
      = ⟨some (summaryHeader g today users ++ fallbackReport users),
         sendSummaryMessages (summaryHeader g today users ++ fallbackReport users)⟩ := by
    unfold generateAndSendSummaryForGroup
    rw [hadmin, hfind]
    rw [if_neg (by simp), if_neg (by simp), if_neg hcover]
    rcases hgen with hg | hg <;> subst hg
    · rfl
    · simp
  refine ⟨hE, sendSummaryMessages_ne_nil _ ?_⟩
  intro hc
  have hlen0 : (summaryHeader g today users ++ fallbackReport users).length = 0 := by
    rw [hc]; rfl
  rw [List.length_append] at hlen0
  have hpos := summaryHeader_pos g today users
  omega



/-- Witness for C8: with one responder, a resolvable administrator and an
unavailable summarizer, the composed report is the fallback report and it is
sent. -/
theorem summarizer_failure_fallback_witness :
    pyTruthy grp1.admin_username = true ∧
    ((([adminRow].find? (fun u => u.username == grp1.admin_username)).map
        (fun u => u.uid.isSome)).getD false = true) ∧
    generateAndSendSummaryForGroup grp1 [userAResp] [adminRow] none (lit "01/01/2026")
      = ⟨some (summaryHeader grp1 (lit "01/01/2026") [userAResp] ++ fallbackReport [userAResp]),
         sendSummaryMessages (summaryHeader grp1 (lit "01/01/2026") [userAResp]
           ++ fallbackReport [userAResp])⟩ :=
  ⟨by decide, by decide,
   (summarizer_failure_fallback_delivered grp1 [userAResp] [adminRow] none (lit "01/01/2026")
      (by decide) (by decide) (by decide) (Or.inl rfl)).1⟩

/-- The per-day reset commutes with the live-roster query: it touches none of
the columns the roster filter reads. -/
theorem liveRoster_map_reset (users : List DbUser) (g : Nat) :
    liveRoster (users.map (resetUserForDay g)) g = (liveRoster users g).map (resetUserForDay g) := by
  unfold liveRoster
  rw [List.filter_map]
  congr 1
  apply List.filter_congr
  intro u _
  simp only [Function.comp_apply]
  unfold resetUserForDay
  split <;> rfl

/-- C4: if the live roster of the group is empty at cycle start, the start
event sends no prompts, schedules no timeout job, records no snapshot and
dispatches nothing (only the committed per-day reset of the group rows
remains); moreover, a later timeout event for that group is a no-op, since no
job was scheduled. -/
theorem empty_roster_start_sends_nothing (g : Nat) (st : SchedState)
    (hempty : liveRoster st.users g = []) :
    (stepEvent st (.start g)).prompts = st.prompts ∧
    (stepEvent st (.start g)).timeoutJobs = st.timeoutJobs ∧
    (stepEvent st (.start g)).dispatches = st.dispatches ∧
    (stepEvent st (.start g)).snapshots = st.snapshots ∧
    (st.timeoutJobs.contains g = false →
      stepEvent (stepEvent st (.start g)) (.timeout g) = stepEvent st (.start g)) := by
  have hroster : liveRoster (st.users.map (resetUserForDay g)) g = [] := by
    rw [liveRoster_map_reset, hempty]
    rfl
  have hstep : stepEvent st (.start g) = sendMorningQuestionsToGroup g st := rfl
  cases hg : st.groups.find? (fun gr => gr.id == g && gr.is_active) with
  | none =>
    have hE : sendMorningQuestionsToGroup g st = st := by
      unfold sendMorningQuestionsToGroup
      rw [hg]
    rw [hstep, hE]
    refine ⟨rfl, rfl, rfl, rfl, fun hc => ?_⟩
    show stepEvent st (.timeout g) = st
    simp only [stepEvent]
    rw [hc]
    simp
  | some gr =>
    have hE : sendMorningQuestionsToGroup g st = { st with users := st.users.map (resetUserForDay g) } := by
      unfold sendMorningQuestionsToGroup
      rw [hg]
      simp only [hroster, if_true]
    rw [hstep, hE]
    refine ⟨rfl, rfl, rfl, rfl, fun hc => ?_⟩
    show stepEvent _ (.timeout g) = _
    simp only [stepEvent]
    rw [hc]
    simp


/-- Witness for C4: group 1 is active but has no roster (its only linked user
is not a team member), so `start` schedules no timeout job. -/
theorem empty_roster_start_witness :
    liveRoster stC.users 1 = [] ∧ (stepEvent stC (.start 1)).timeoutJobs = stC.timeoutJobs :=
  ⟨by decide, (empty_roster_start_sends_nothing 1 stC (by decide)).2.1⟩

/-- C10: whenever an active group's cycle starts, every user row linked to the
group — regardless of active/verified/team-member status — is reset for the
day (`has_responded_today = false`, `last_response = None`,
`response_retry_count = 0`), and this reset is in the committed state even when
the roster then turns out to be empty (the resulting user table is always the
mapped reset, whichever branch is taken afterwards). -/
theorem start_resets_all_group_rows (g : Nat) (st : SchedState)
    (hgrp : (st.groups.find? (fun gr => gr.id == g && gr.is_active)).isSome = true) :
    (stepEvent st (.start g)).users = st.users.map (resetUserForDay g) ∧
    ∀ u ∈ (stepEvent st (.start g)).users, u.group_id = some g →
      u.has_responded_today = false ∧ u.last_response = none ∧ u.response_retry_count = 0 := by
  cases hg : st.groups.find? (fun gr => gr.id == g && gr.is_active) with
  | none => rw [hg] at hgrp; simp at hgrp
  | some gr =>
    have husers : (stepEvent st (.start g)).users = st.users.map (resetUserForDay g) := by
      show (sendMorningQuestionsToGroup g st).users = _
      unfold sendMorningQuestionsToGroup
      rw [hg]
      split
      next x heq => exact absurd heq (by simp)
      next x val heq =>
        dsimp only
        split <;> rfl
    refine ⟨husers, ?_⟩
    rw [husers]
    intro u hu hgid
    rcases List.mem_map.mp hu with ⟨v, _, he⟩
    unfold resetUserForDay at he
    by_cases hvg : (v.group_id == some g) = true
    · rw [if_pos hvg] at he
      rw [← he]
      exact ⟨rfl, rfl, rfl⟩
    · rw [if_neg (by simp [hvg])] at he
      rw [← he] at hgid
      rw [beq_iff_eq] at hvg
      exact absurd hgid hvg

/-- Witness for C10: starting group 1 resets the non-member row `userC` as
well, even though the roster is empty. -/
theorem start_resets_witness :
    ((stAC.groups.find? (fun gr => gr.id == 1 && gr.is_active)).isSome = true) ∧
      (stepEvent stAC (.start 1)).users = stAC.users.map (resetUserForDay 1) :=
  ⟨by decide, (start_resets_all_group_rows 1 stAC (by decide)).1⟩

/-- Shape of the user table after `process_user_response` finds the sender:
exactly the matching rows are rewritten with `respStoreFn`, whatever the
completion check then does. -/
theorem processUserResponse_users (sender : TgUser) (text : Str) (st : SchedState)
    (dbUser : DbUser)
    (hfind : st.users.find? (fun u => u.uid == some sender.id) = some dbUser) :
    (processUserResponse sender text st).users
      = updateWhere (fun u => u.dbId == dbUser.dbId) (respStoreFn sender text st dbUser) st.users := by
  unfold processUserResponse
  rw [hfind]
  dsimp only
  cases hgid : dbUser.group_id with
  | none => rfl
  | some g =>
    dsimp only
    cases hfg : st.groups.find? (fun gr => gr.id == g) with
    | none => rfl
    | some gr =>
      dsimp only
      split <;> rfl

/-- Rows matching the found sender are marked responded with the submitted
text by `process_user_response`. -/
theorem processUserResponse_stores (sender : TgUser) (text : Str) (st : SchedState)
    (dbUser : DbUser)
    (hfind : st.users.find? (fun u => u.uid == some sender.id) = some dbUser) :
    ∀ u ∈ (processUserResponse sender text st).users, u.dbId = dbUser.dbId →
      u.has_responded_today = true ∧ u.last_response = some text := by
  intro u hu hid
  rw [processUserResponse_users sender text st dbUser hfind] at hu
  rcases mem_updateWhere hu with ⟨v, _, ⟨_, he⟩ | ⟨hp, he⟩⟩
  · rw [he]
    exact ⟨rfl, rfl⟩
  · rw [he] at hid
    rw [hid] at hp
    simp at hp

/-- After a follow-up `updateWhere` that only resets counters/flags, the rows
matching the found sender keep the stored response and end with retry count
0. -/
theorem stored_then_reset (sender : TgUser) (text : Str) (st : SchedState) (dbUser : DbUser)
    (hfind : st.users.find? (fun u => u.uid == some sender.id) = some dbUser)
    (f : DbUser → DbUser)
    (hf : ∀ v, (f v).dbId = v.dbId ∧ (f v).has_responded_today = v.has_responded_today ∧
      (f v).last_response = v.last_response ∧ (f v).response_retry_count = 0) :
    ∀ u ∈ updateWhere (fun v => v.dbId == dbUser.dbId) f (processUserResponse sender text st).users,
      u.dbId = dbUser.dbId →
      u.has_responded_today = true ∧ u.last_response = some text ∧ u.response_retry_count = 0 := by
  intro u hu hid
  rcases mem_updateWhere hu with ⟨v, hv, ⟨hp, he⟩ | ⟨hp, he⟩⟩
  · rw [beq_iff_eq] at hp
    have hst := processUserResponse_stores sender text st dbUser hfind v hv hp
    rcases hf v with ⟨_, h2, h3, h4⟩
    rw [he]
    rw [h2, h3, h4]
    exact ⟨hst.1, hst.2, rfl⟩
  · rw [he] at hid
    rw [hid] at hp
    simp at hp

/-- C5: once a member's retry counter has reached 3, the quality gate is
skipped entirely: the member's next submission is stored as their response
(`has_responded_today` set, `last_response` the submitted text, counter reset
to 0) regardless of the submission's content, and the whole step is
independent of the judge backend — the same result for any two judge values,
so no judge call can influence it. -/
theorem retries_exhausted_force_accept (dbUser : DbUser) (sender : TgUser) (text : Str)
    (j1 j2 : Option Str) (st : SchedState)
    (h3 : 3 ≤ dbUser.response_retry_count)
    (hfind : st.users.find? (fun u => u.uid == some sender.id) = some dbUser) :
    processDailyPlan dbUser sender text j1 st = processDailyPlan dbUser sender text j2 st ∧
    ∀ u ∈ (processDailyPlan dbUser sender text j1 st).users, u.dbId = dbUser.dbId →
      u.has_responded_today = true ∧ u.last_response = some text ∧ u.response_retry_count = 0 := by
  have hz : (dbUser.response_retry_count == 0) = false := by
    cases hb : (dbUser.response_retry_count == 0) with
    | false => rfl
    | true => rw [beq_iff_eq] at hb; omega
  have hgate : ∀ j : Option Str,
      ¬(dbUser.response_retry_count < 3 ∧ (analyzeResponseQuality j text).is_acceptable = false) := by
    rintro j ⟨hlt, _⟩
    omega
  by_cases hedit : (dbUser.activation_token == some (lit "editing_mode")) = true
  · have hred : ∀ j : Option Str, processDailyPlan dbUser sender text j st
        = { processUserResponse sender text st with
            users := updateWhere (fun u => u.dbId == dbUser.dbId)
              (fun u => { u with activation_token := none, response_retry_count := 0 })
              (processUserResponse sender text st).users } := by
      intro j
      unfold processDailyPlan
      rw [if_pos hedit]
    refine ⟨by rw [hred j1, hred j2], ?_⟩
    rw [hred j1]
    intro u hu hid
    exact stored_then_reset sender text st dbUser hfind
      (fun u => { u with activation_token := none, response_retry_count := 0 })
      (fun v => ⟨rfl, rfl, rfl, rfl⟩) u hu hid
  · have hsoft : ¬ ((dbUser.has_responded_today && dbUser.response_retry_count == 0) = true) := by
      rw [hz, Bool.and_false]
      exact Bool.false_ne_true
    have hred : ∀ j : Option Str, processDailyPlan dbUser sender text j st
        = { processUserResponse sender text st with
            users := updateWhere (fun u => u.dbId == dbUser.dbId)
              (fun u => { u with response_retry_count := 0 })
              (processUserResponse sender text st).users } := by
      intro j
      unfold processDailyPlan
      rw [if_neg hedit, if_neg hsoft, if_neg (hgate j)]
    refine ⟨by rw [hred j1, hred j2], ?_⟩
    rw [hred j1]
    intro u hu hid
    exact stored_then_reset sender text st dbUser hfind
      (fun u => { u with response_retry_count := 0 })
      (fun v => ⟨rfl, rfl, rfl, rfl⟩) u hu hid



/-- Witness for C5: with retries exhausted, the one-character text "a" is
force-accepted, and a rejecting judge gives the same result as an unavailable
one. -/
theorem retries_exhausted_witness :
    3 ≤ userARetry3.response_retry_count ∧
    stRetry3.users.find? (fun u => u.uid == some tgA.id) = some userARetry3 ∧
    processDailyPlan userARetry3 tgA (lit "a") (some (lit "ACCEPTABLE: нет")) stRetry3
      = processDailyPlan userARetry3 tgA (lit "a") none stRetry3 :=
  ⟨by decide, by decide,
   (retries_exhausted_force_accept userARetry3 tgA (lit "a") (some (lit "ACCEPTABLE: нет")) none
      stRetry3 (by decide) (by decide)).1⟩



/-- `updateWhere` with a projection-preserving row function preserves the
projected table. -/
theorem updateWhere_respondProj (p : DbUser → Bool) (f : DbUser → DbUser) (l : List DbUser)
    (hf : ∀ v, userRespondProj (f v) = userRespondProj v) :
    (updateWhere p f l).map userRespondProj = l.map userRespondProj := by
  unfold updateWhere
  rw [List.map_map]
  apply List.map_congr_left
  intro u _
  simp only [Function.comp_apply]
  split
  · exact hf u
  · rfl

/-- C2 (amended): an inbound plan text is ignored — no response stored, no
history row, no flag, no retry change, no resolution — exactly when the sender
gate of `handle_user_message_sync` stops it: the sender is unknown to the user
table, or known but unverified, or known but inactive.  (Roster membership —
the `is_group_member` flag — and any notion of an already-resolved cycle are
not part of the gate; see the counterexample for the claim as originally
stated.) -/
theorem response_ignored_for_unknown_unverified_inactive (sender : TgUser) (text : Str)
    (judge : Option Str) (st : SchedState)
    (hcmd : ((lit "/start").isPrefixOf text) = false)
    (hgate : (st.users.find? (fun u => u.uid == some sender.id)).all
        (fun u => !u.is_verified || !u.is_active) = true) :
    respondView (handleUserMessageSync sender text judge st) = respondView st := by
  unfold handleUserMessageSync
  rw [hcmd, if_neg Bool.false_ne_true]
  cases hf : st.users.find? (fun u => u.uid == some sender.id) with
  | none => rfl
  | some u =>
    rw [hf] at hgate
    simp only [Option.all_some] at hgate
    dsimp only
    by_cases hv : u.is_verified = true
    · have hact : u.is_active = false := by
        cases ha : u.is_active with
        | false => rfl
        | true => rw [hv, ha] at hgate; simp at hgate
      rw [hv, if_neg (by simp)]
      rw [hact, if_pos (by simp)]
      unfold respondView
      dsimp only
      refine congrArg
        (fun x => (x, st.history, st.dispatches, st.timeoutJobs, st.prompts, st.snapshots)) ?_
      apply updateWhere_respondProj
      intro v
      rfl
    · have hv' : u.is_verified = false := Bool.not_eq_true u.is_verified |>.mp hv
      rw [hv', if_pos (by simp)]



/-- Witness for the amended C2: an unverified sender's plan text changes
nothing in the response view. -/
theorem response_ignored_witness :
    ((lit "/start").isPrefixOf planText) = false ∧
    (stUnv.users.find? (fun u => u.uid == some tgA.id)).all
        (fun u => !u.is_verified || !u.is_active) = true ∧
    respondView (handleUserMessageSync tgA planText none stUnv) = respondView stUnv := by
  refine ⟨by decide, by decide, ?_⟩
  exact response_ignored_for_unknown_unverified_inactive tgA planText none stUnv
    (by decide) (by decide)

/-- Counterexample to C2 as stated: `userC` is verified and active but not a
team member, so it is not in the roster snapshotted at the cycle start of
group 1 (the snapshot holds only `userA`); its inbound response is nonetheless
stored — the responded flag is set, the text saved, and a history row
appended — because `handle_user_message_sync` never checks `is_group_member`
or any resolution state. -/
theorem response_stored_for_non_roster_member :
    userC.is_group_member = false ∧
    (runTrace stAC [.start 1, .message tgC planText none]).snapshots = [(1, [userA])] ∧
    ((runTrace stAC [.start 1, .message tgC planText none]).users.find?
        (fun u => u.dbId == 3)).map (fun u => (u.has_responded_today, u.last_response))
      = some (true, some planText) ∧
    (runTrace stAC [.start 1, .message tgC planText none]).history = [(3, planText)] := by
  decide

/-- The timeout handler never changes the pending-job list. -/
theorem genTimeout_jobs (g : Nat) (s : SchedState) :
    (generateSummaryAfterTimeoutForGroup g s).timeoutJobs = s.timeoutJobs := by
  unfold generateSummaryAfterTimeoutForGroup
  cases hg : s.groups.find? (fun gr => gr.id == g && gr.is_active) with
  | none => rfl
  | some gr =>
    dsimp only
    split <;> rfl

/-- The timeout handler appends at most one dispatch. -/
theorem genTimeout_disp_len (g : Nat) (s : SchedState) :
    (generateSummaryAfterTimeoutForGroup g s).dispatches.length ≤ s.dispatches.length + 1 := by
  unfold generateSummaryAfterTimeoutForGroup
  cases hg : s.groups.find? (fun gr => gr.id == g && gr.is_active) with
  | none => dsimp only; omega
  | some gr =>
    dsimp only
    split
    · omega
    · simp only [List.length_append, List.length_cons, List.length_nil]
      omega

/-- The timeout handler never reads or writes the recorded Start snapshots. -/
theorem genTimeout_snapshots (g : Nat) (s : SchedState) (snaps : List (Nat × List DbUser)) :
    generateSummaryAfterTimeoutForGroup g { s with snapshots := snaps }
      = { generateSummaryAfterTimeoutForGroup g s with snapshots := snaps } := by
  unfold generateSummaryAfterTimeoutForGroup
  dsimp only
  cases hg : s.groups.find? (fun gr => gr.id == g && gr.is_active) with
  | none => rfl
  | some gr =>
    dsimp only
    by_cases hr : liveRoster s.users g = []
    · rw [if_pos hr, if_pos hr]
    · rw [if_neg hr, if_neg hr]

/-- Counterexample to C1 as stated: in a single cycle of group 1 (one `start`
event), the timeout fires with only one of the two members responded and
dispatches a summary; then the late member's accepted response makes the
early-completion check find the live roster complete and dispatch a second
summary.  `Dispatch` runs twice in one cycle, and the timeout callback and the
early-completion check are not mutually exclusive. -/
theorem dispatch_twice_in_one_cycle :
    ((runTrace stAB
        [.start 1, .message tgA planText none, .timeout 1, .message tgB planText none]).dispatches.map
      (fun d => (d.groupId, d.viaTimeout))) = [(1, true), (1, false)] := by
  decide

/-- C1 (amended): the scheduled timeout callback itself is one-shot — firing
consumes the job, so firing it again is a no-op, each firing appends at most
one dispatch, and a timeout with no pending job (cancelled or never scheduled)
changes nothing.  `Dispatch` is nonetheless not at-most-once per cycle,
because the early-completion check re-fires on accepted responses after
resolution (see the counterexample). -/
theorem timeout_dispatch_oneshot (st : SchedState) (g : Nat)
    (hnd : st.timeoutJobs.Nodup) :
    stepEvent (stepEvent st (.timeout g)) (.timeout g) = stepEvent st (.timeout g) ∧
    (stepEvent st (.timeout g)).dispatches.length ≤ st.dispatches.length + 1 ∧
    (st.timeoutJobs.contains g = false → stepEvent st (.timeout g) = st) := by
  by_cases hc : st.timeoutJobs.contains g = true
  · have h1 : stepEvent st (.timeout g)
        = generateSummaryAfterTimeoutForGroup g { st with timeoutJobs := st.timeoutJobs.erase g } := by
      show (if st.timeoutJobs.contains g = true
          then generateSummaryAfterTimeoutForGroup g { st with timeoutJobs := st.timeoutJobs.erase g }
          else st) = _
      rw [if_pos hc]
    have hjobs : (stepEvent st (.timeout g)).timeoutJobs = st.timeoutJobs.erase g := by
      rw [h1, genTimeout_jobs]
    have hc2 : (stepEvent st (.timeout g)).timeoutJobs.contains g = false := by
      rw [hjobs]
      cases hcc : (st.timeoutJobs.erase g).contains g with
      | false => rfl
      | true => exact absurd (List.elem_iff.mp hcc) (List.Nodup.not_mem_erase hnd)
    refine ⟨?_, ?_, ?_⟩
    · show (if (stepEvent st (.timeout g)).timeoutJobs.contains g = true
          then generateSummaryAfterTimeoutForGroup g
            { stepEvent st (.timeout g) with
              timeoutJobs := (stepEvent st (.timeout g)).timeoutJobs.erase g }
          else stepEvent st (.timeout g)) = stepEvent st (.timeout g)
      rw [hc2]
      simp
    · rw [h1]
      calc (generateSummaryAfterTimeoutForGroup g
              { st with timeoutJobs := st.timeoutJobs.erase g }).dispatches.length
          ≤ ({ st with timeoutJobs := st.timeoutJobs.erase g } : SchedState).dispatches.length + 1 :=
            genTimeout_disp_len g _
        _ = st.dispatches.length + 1 := rfl
    · intro hcf
      rw [hcf] at hc
      exact absurd hc Bool.false_ne_true
  · have h0 : stepEvent st (.timeout g) = st := by
      show (if st.timeoutJobs.contains g = true
          then generateSummaryAfterTimeoutForGroup g { st with timeoutJobs := st.timeoutJobs.erase g }
          else st) = st
      rw [if_neg hc]
    exact ⟨by rw [h0, h0], by rw [h0]; omega, fun _ => h0⟩


/-- Witness for the amended C1: with the job pending, firing the timeout twice
equals firing it once. -/
theorem timeout_dispatch_oneshot_witness :
    stJob.timeoutJobs.Nodup ∧
      stepEvent (stepEvent stJob (.timeout 1)) (.timeout 1) = stepEvent stJob (.timeout 1) :=
  ⟨by decide, (timeout_dispatch_oneshot stJob 1 (by decide)).1⟩

/-- Counterexample to C3 as stated: the roster snapshotted at Start of group 1
contains both members, and member B (`uid 20`) never responds; after the
external admin layer deactivates B mid-cycle, member A's single accepted
response finds the live membership complete and dispatches the summary even
though the Start snapshot is not complete.  The completion check runs against
live membership, not against the frozen snapshot. -/
theorem completion_check_not_frozen :
    (runTrace stAB [.start 1, .setActive 20 false, .message tgA planText none]).dispatches.length = 1
      ∧ rosterCompleteSpec
          (runTrace stAB [.start 1, .setActive 20 false, .message tgA planText none]) 1 = false := by
  decide

/-- C3 (amended): the partition handed to the summary composer when the
timeout fires is the live membership query evaluated at that moment
(`liveRoster` of the current table), and the timeout path neither reads nor
writes the roster recorded at Start — replacing the recorded snapshots by
anything leaves its behaviour unchanged.  Together with the counterexample
this shows both checks are live, not frozen. -/
theorem timeout_partition_uses_live_membership (st : SchedState) (g : Nat)
    (hjob : st.timeoutJobs.contains g = true)
    (hgrp : (st.groups.find? (fun gr => gr.id == g && gr.is_active)).isSome = true)
    (hne : ¬ liveRoster st.users g = []) :
    (stepEvent st (.timeout g)).dispatches = st.dispatches ++ [⟨g, liveRoster st.users g, true⟩] ∧
    ∀ snaps, stepEvent { st with snapshots := snaps } (.timeout g)
        = { stepEvent st (.timeout g) with snapshots := snaps } := by
  have h1 : stepEvent st (.timeout g)
      = generateSummaryAfterTimeoutForGroup g { st with timeoutJobs := st.timeoutJobs.erase g } := by
    show (if st.timeoutJobs.contains g = true
        then generateSummaryAfterTimeoutForGroup g { st with timeoutJobs := st.timeoutJobs.erase g }
        else st) = _
    rw [if_pos hjob]
  constructor
  · rw [h1]
    cases hg : st.groups.find? (fun gr => gr.id == g && gr.is_active) with
    | none => rw [hg] at hgrp; simp at hgrp
    | some gr =>
      unfold generateSummaryAfterTimeoutForGroup
      dsimp only
      rw [hg]
      dsimp only
      rw [if_neg hne]
  · intro snaps
    have hjob2 : ({ st with snapshots := snaps } : SchedState).timeoutJobs.contains g = true := hjob
    have h2 : stepEvent { st with snapshots := snaps } (.timeout g)
        = generateSummaryAfterTimeoutForGroup g
            { ({ st with snapshots := snaps } : SchedState) with
              timeoutJobs := ({ st with snapshots := snaps } : SchedState).timeoutJobs.erase g } := by
      show (if ({ st with snapshots := snaps } : SchedState).timeoutJobs.contains g = true
          then generateSummaryAfterTimeoutForGroup g
            { ({ st with snapshots := snaps } : SchedState) with
              timeoutJobs := ({ st with snapshots := snaps } : SchedState).timeoutJobs.erase g }
          else ({ st with snapshots := snaps } : SchedState)) = _
      rw [if_pos hjob2]
    rw [h2, h1]
    exact genTimeout_snapshots g { st with timeoutJobs := st.timeoutJobs.erase g } snaps

/-- Witness for the amended C3: with the job pending and both members live,
the timeout dispatch carries exactly the live roster. -/
theorem timeout_partition_witness :
    stJob.timeoutJobs.contains 1 = true ∧
    (stJob.groups.find? (fun gr => gr.id == 1 && gr.is_active)).isSome = true ∧
    (stepEvent stJob (.timeout 1)).dispatches
      = stJob.dispatches ++ [⟨1, liveRoster stJob.users 1, true⟩] :=
  ⟨by decide, by decide,
   (timeout_partition_uses_live_membership stJob 1 (by decide) (by decide) (by decide)).1⟩

/-- Appending an early-completion dispatch (tagged `viaTimeout = false`) never
changes the timeout-dispatch count. -/
theorem timeoutCount_append_response (g gp : Nat) (l : List DispatchRec) (users : List DbUser) :
    (List.filter (fun d => d.groupId == g && d.viaTimeout) (l ++ [⟨gp, users, false⟩])).length
      = (List.filter (fun d => d.groupId == g && d.viaTimeout) l).length := by
  rw [List.filter_append]
  have h : List.filter (fun d => d.groupId == g && d.viaTimeout)
      [(⟨gp, users, false⟩ : DispatchRec)] = [] := by
    simp [List.filter]
  rw [h, List.append_nil]

/-- The morning fan-out never dispatches. -/
theorem sendMorning_dispatches (gp : Nat) (st : SchedState) :
    (sendMorningQuestionsToGroup gp st).dispatches = st.dispatches := by
  unfold sendMorningQuestionsToGroup
  cases hg : st.groups.find? (fun gr => gr.id == gp && gr.is_active) with
  | none => rfl
  | some gr =>
    dsimp only
    split <;> rfl

/-- The morning fan-out either leaves the job list untouched, or appends the
group's own job when it is absent. -/
theorem sendMorning_jobs (gp : Nat) (st : SchedState) :
    (sendMorningQuestionsToGroup gp st).timeoutJobs = st.timeoutJobs ∨
      (gp ∉ st.timeoutJobs ∧
        (sendMorningQuestionsToGroup gp st).timeoutJobs = st.timeoutJobs ++ [gp]) := by
  unfold sendMorningQuestionsToGroup
  cases hg : st.groups.find? (fun gr => gr.id == gp && gr.is_active) with
  | none => left; rfl
  | some gr =>
    dsimp only
    split
    · left; rfl
    · by_cases hc : st.timeoutJobs.contains gp = true
      · left
        dsimp only
        rw [if_pos hc]
      · right
        refine ⟨fun hmem => hc (List.elem_iff.mpr hmem), ?_⟩
        dsimp only
        rw [if_neg hc]

/-- `process_user_response` never dispatches via the timeout tag and only ever
removes its own group's pending job. -/
theorem processUserResponse_shape (s : TgUser) (t : Str) (st : SchedState) (g : Nat) :
    timeoutDispatchCount g (processUserResponse s t st) = timeoutDispatchCount g st ∧
    ((processUserResponse s t st).timeoutJobs = st.timeoutJobs ∨
      ∃ x, (processUserResponse s t st).timeoutJobs = st.timeoutJobs.erase x) := by
  unfold processUserResponse
  cases hfind : st.users.find? (fun u => u.uid == some s.id) with
  | none => exact ⟨rfl, Or.inl rfl⟩
  | some dbUser =>
    dsimp only
    cases hgid : dbUser.group_id with
    | none => exact ⟨rfl, Or.inl rfl⟩
    | some gp =>
      dsimp only
      cases hfg : st.groups.find? (fun gr => gr.id == gp) with
      | none => exact ⟨rfl, Or.inl rfl⟩
      | some gr =>
        dsimp only
        split
        · constructor
          · unfold timeoutDispatchCount
            dsimp only
            exact timeoutCount_append_response g gp st.dispatches _
          · exact Or.inr ⟨gp, rfl⟩
        · exact ⟨rfl, Or.inl rfl⟩

/-- `_process_daily_plan` inherits the same shape: no timeout-tagged dispatch,
jobs at most shrunk by one erase. -/
theorem processDailyPlan_shape (d : DbUser) (s : TgUser) (t : Str) (j : Option Str)
    (st : SchedState) (g : Nat) :
    timeoutDispatchCount g (processDailyPlan d s t j st) = timeoutDispatchCount g st ∧
    ((processDailyPlan d s t j st).timeoutJobs = st.timeoutJobs ∨
      ∃ x, (processDailyPlan d s t j st).timeoutJobs = st.timeoutJobs.erase x) := by
  unfold processDailyPlan
  split
  · exact ⟨(processUserResponse_shape s t st g).1, (processUserResponse_shape s t st g).2⟩
  · split
    · exact ⟨rfl, Or.inl rfl⟩
    · split
      · exact ⟨rfl, Or.inl rfl⟩
      · exact ⟨(processUserResponse_shape s t st g).1, (processUserResponse_shape s t st g).2⟩

/-- The token-less activation flow only touches the user table. -/
theorem startPendingOrNew_state (s : TgUser) (st : SchedState) :
    (startPendingOrNew s st).timeoutJobs = st.timeoutJobs ∧
    (startPendingOrNew s st).dispatches = st.dispatches := by
  unfold startPendingOrNew
  cases hp : (if pyTruthy s.username then
      st.users.find? (fun v => v.username == s.username && v.uid == none) else none) with
  | some pend => exact ⟨rfl, rfl⟩
  | none =>
    dsimp only
    split
    · exact ⟨rfl, rfl⟩
    · exact ⟨rfl, rfl⟩

/-- The token-less `/start` branch only touches the user table. -/
theorem startNoToken_state (s : TgUser) (st : SchedState) :
    (startNoToken s st).timeoutJobs = st.timeoutJobs ∧
    (startNoToken s st).dispatches = st.dispatches := by
  unfold startNoToken
  cases hf : st.users.find? (fun u => u.uid == some s.id) with
  | some u =>
    dsimp only
    split
    · exact ⟨rfl, rfl⟩
    · exact startPendingOrNew_state s st
  | none => exact startPendingOrNew_state s st

/-- The token activation only touches the user table. -/
theorem activate_state (tok : Str) (s : TgUser) (st : SchedState) :
    (activateUserWithToken tok s st).timeoutJobs = st.timeoutJobs ∧
    (activateUserWithToken tok s st).dispatches = st.dispatches := by
  unfold activateUserWithToken
  cases hg : tokenGroup tok st.groups with
  | none => exact ⟨rfl, rfl⟩
  | some gr =>
    dsimp only
    cases hex : st.users.find? (fun u => u.uid == some s.id) with
    | some ex =>
      dsimp only
      split
      · exact ⟨rfl, rfl⟩
      · split
        · exact ⟨rfl, rfl⟩
        · exact ⟨rfl, rfl⟩
    | none =>
      dsimp only
      cases hp : (if pyTruthy s.username then
          st.users.find? (fun v => v.username == s.username && v.uid == none) else none) with
      | some pend => exact ⟨rfl, rfl⟩
      | none => exact ⟨rfl, rfl⟩

/-- The whole `/start` handler only touches the user table: jobs and the
dispatch log are untouched. -/
theorem handleStart_state (s : TgUser) (t : Str) (st : SchedState) :
    (handleStartCommand s t st).timeoutJobs = st.timeoutJobs ∧
    (handleStartCommand s t st).dispatches = st.dispatches := by
  unfold handleStartCommand
  cases hsp : splitRest t with
  | none => exact startNoToken_state s st
  | some tok =>
    dsimp only
    split
    · exact startNoToken_state s st
    · exact activate_state tok s st

/-- The inbound-message handler inherits the same shape. -/
theorem handleUserMessage_shape (s : TgUser) (t : Str) (j : Option Str)
    (st : SchedState) (g : Nat) :
    timeoutDispatchCount g (handleUserMessageSync s t j st) = timeoutDispatchCount g st ∧
    ((handleUserMessageSync s t j st).timeoutJobs = st.timeoutJobs ∨
      ∃ x, (handleUserMessageSync s t j st).timeoutJobs = st.timeoutJobs.erase x) := by
  unfold handleUserMessageSync
  split
  · refine ⟨?_, Or.inl (handleStart_state s t st).1⟩
    unfold timeoutDispatchCount
    rw [(handleStart_state s t st).2]
  · cases hfind : st.users.find? (fun u => u.uid == some s.id) with
    | none => exact ⟨rfl, Or.inl rfl⟩
    | some u =>
      dsimp only
      split
      · exact ⟨rfl, Or.inl rfl⟩
      · split
        · exact ⟨rfl, Or.inl rfl⟩
        · exact ⟨(processDailyPlan_shape _ s t j _ g).1, (processDailyPlan_shape _ s t j _ g).2⟩

/-- The `/change` handler changes neither the job list nor the dispatch log. -/
theorem handleChange_state (s : TgUser) (st : SchedState) :
    (handleChangeCommand s st).timeoutJobs = st.timeoutJobs ∧
    (handleChangeCommand s st).dispatches = st.dispatches := by
  unfold handleChangeCommand
  cases hfind : st.users.find? (fun u => u.uid == some s.id) with
  | none => exact ⟨rfl, rfl⟩
  | some u =>
    dsimp only
    split
    · exact ⟨rfl, rfl⟩
    · split
      · exact ⟨rfl, rfl⟩
      · split
        · exact ⟨rfl, rfl⟩
        · exact ⟨rfl, rfl⟩

/-- A timeout firing adds at most one timeout-tagged dispatch, and only for
its own group. -/
theorem genTimeout_timeoutCount (g gp : Nat) (s : SchedState) :
    timeoutDispatchCount g (generateSummaryAfterTimeoutForGroup gp s)
      ≤ timeoutDispatchCount g s + (if gp = g then 1 else 0) := by
  unfold generateSummaryAfterTimeoutForGroup
  cases hg : s.groups.find? (fun gr => gr.id == gp && gr.is_active) with
  | none =>
    dsimp only
    split <;> omega
  | some gr =>
    dsimp only
    split
    · split <;> omega
    · unfold timeoutDispatchCount
      dsimp only
      rw [List.filter_append, List.length_append]
      have hle : (List.filter (fun d => d.groupId == g && d.viaTimeout)
          [(⟨gp, liveRoster s.users gp, true⟩ : DispatchRec)]).length ≤ 1 :=
        le_trans (List.length_filter_le _ _) (by simp)
      by_cases hgg : gp = g
      · rw [if_pos hgg]
        omega
      · have h0 : List.filter (fun d => d.groupId == g && d.viaTimeout)
            [(⟨gp, liveRoster s.users gp, true⟩ : DispatchRec)] = [] := by
          have hbeq : (gp == g) = false := beq_eq_false_iff_ne.mpr hgg
          simp [List.filter, hbeq]
        rw [if_neg hgg, h0]
        simp

/-- The job flag never exceeds 1. -/
theorem jobFlag_le_one (g : Nat) (st : SchedState) : jobFlag g st ≤ 1 := by
  unfold jobFlag
  split <;> omega

/-- Erasing an element can only lower the job-flag value. -/
theorem flag_erase_le (g x : Nat) (l : List Nat) :
    (if g ∈ l.erase x then 1 else 0) ≤ (if g ∈ l then 1 else 0) := by
  by_cases hm : g ∈ l.erase x
  · rw [if_pos hm, if_pos (List.mem_of_mem_erase hm)]
  · rw [if_neg hm]
    exact Nat.zero_le _

/-- Every event preserves the no-duplicates invariant of the job list
(APScheduler ids are unique: a job is added only when absent). -/
theorem stepEvent_jobs_nodup (st : SchedState) (e : SchedEvent)
    (h : st.timeoutJobs.Nodup) : (stepEvent st e).timeoutJobs.Nodup := by
  cases e with
  | start gp =>
    rcases sendMorning_jobs gp st with hj | ⟨hna, hj⟩
    · show (sendMorningQuestionsToGroup gp st).timeoutJobs.Nodup
      rw [hj]; exact h
    · show (sendMorningQuestionsToGroup gp st).timeoutJobs.Nodup
      rw [hj, List.nodup_append]
      exact ⟨h, List.nodup_singleton gp, by simpa [List.disjoint_singleton] using hna⟩
  | message s t j =>
    rcases (handleUserMessage_shape s t j st 0).2 with hj | ⟨x, hj⟩
    · show (handleUserMessageSync s t j st).timeoutJobs.Nodup
      rw [hj]; exact h
    · show (handleUserMessageSync s t j st).timeoutJobs.Nodup
      rw [hj]; exact h.erase x
  | changeCmd s =>
    show (handleChangeCommand s st).timeoutJobs.Nodup
    rw [(handleChange_state s st).1]; exact h
  | timeout gp =>
    by_cases hc : st.timeoutJobs.contains gp = true
    · show (if st.timeoutJobs.contains gp = true
          then generateSummaryAfterTimeoutForGroup gp { st with timeoutJobs := st.timeoutJobs.erase gp }
          else st).timeoutJobs.Nodup
      rw [if_pos hc, genTimeout_jobs]
      exact h.erase gp
    · show (if st.timeoutJobs.contains gp = true
          then generateSummaryAfterTimeoutForGroup gp { st with timeoutJobs := st.timeoutJobs.erase gp }
          else st).timeoutJobs.Nodup
      rw [if_neg hc]
      exact h
  | setActive u b => exact h

/-- One event raises the combined quantity "timeout dispatches so far for `g`
plus pending-job flag of `g`" by at most 1, and only a `start g` event can
raise it at all. -/
theorem stepEvent_timeout_bound (st : SchedState) (e : SchedEvent) (g : Nat)
    (hnd : st.timeoutJobs.Nodup) :
    timeoutDispatchCount g (stepEvent st e) + jobFlag g (stepEvent st e)
      ≤ timeoutDispatchCount g st + jobFlag g st
          + (if e == SchedEvent.start g then 1 else 0) := by
  have hite : 0 ≤ (if e == SchedEvent.start g then 1 else 0) := Nat.zero_le _
  cases e with
  | start gp =>
    have hcount : timeoutDispatchCount g (stepEvent st (.start gp)) = timeoutDispatchCount g st := by
      unfold timeoutDispatchCount
      rw [show (stepEvent st (.start gp)).dispatches = st.dispatches from sendMorning_dispatches gp st]
    by_cases hgg : gp = g
    · subst hgg
      have he : ((SchedEvent.start gp) == SchedEvent.start gp) = true := by simp
      rw [hcount, if_pos he]
      have h1 := jobFlag_le_one gp (stepEvent st (.start gp))
      omega
    · have hflag : jobFlag g (stepEvent st (.start gp)) = jobFlag g st := by
        rcases sendMorning_jobs gp st with hj | ⟨_, hj⟩
        · unfold jobFlag
          rw [show (stepEvent st (.start gp)).timeoutJobs = st.timeoutJobs from hj]
        · unfold jobFlag
          rw [show (stepEvent st (.start gp)).timeoutJobs = st.timeoutJobs ++ [gp] from hj]
          have hmem : (g ∈ st.timeoutJobs ++ [gp]) ↔ g ∈ st.timeoutJobs := by
            rw [List.mem_append, List.mem_singleton]
            constructor
            · rintro (hm | hm)
              · exact hm
              · exact absurd hm.symm hgg
            · exact Or.inl
          by_cases hm : g ∈ st.timeoutJobs
          · rw [if_pos (hmem.mpr hm), if_pos hm]
          · rw [if_neg (fun hc => hm (hmem.mp hc)), if_neg hm]
      rw [hcount, hflag]
      omega
  | message s t j =>
    have hcount := (handleUserMessage_shape s t j st g).1
    have hflag : jobFlag g (stepEvent st (.message s t j)) ≤ jobFlag g st := by
      rcases (handleUserMessage_shape s t j st g).2 with hj | ⟨x, hj⟩
      · unfold jobFlag
        rw [show (stepEvent st (.message s t j)).timeoutJobs = st.timeoutJobs from hj]
      · unfold jobFlag
        rw [show (stepEvent st (.message s t j)).timeoutJobs = st.timeoutJobs.erase x from hj]
        exact flag_erase_le g x st.timeoutJobs
    have : timeoutDispatchCount g (stepEvent st (.message s t j)) = timeoutDispatchCount g st := hcount
    omega
  | changeCmd s =>
    have hcount : timeoutDispatchCount g (stepEvent st (.changeCmd s)) = timeoutDispatchCount g st := by
      unfold timeoutDispatchCount
      rw [show (stepEvent st (.changeCmd s)).dispatches = st.dispatches from (handleChange_state s st).2]
    have hflag : jobFlag g (stepEvent st (.changeCmd s)) = jobFlag g st := by
      unfold jobFlag
      rw [show (stepEvent st (.changeCmd s)).timeoutJobs = st.timeoutJobs from (handleChange_state s st).1]
    omega
  | timeout gp =>
    by_cases hc : st.timeoutJobs.contains gp = true
    · have h1 : stepEvent st (.timeout gp)
          = generateSummaryAfterTimeoutForGroup gp { st with timeoutJobs := st.timeoutJobs.erase gp } := by
        show (if st.timeoutJobs.contains gp = true
            then generateSummaryAfterTimeoutForGroup gp { st with timeoutJobs := st.timeoutJobs.erase gp }
            else st) = _
        rw [if_pos hc]
      have hjobs : (stepEvent st (.timeout gp)).timeoutJobs = st.timeoutJobs.erase gp := by
        rw [h1, genTimeout_jobs]
      have hcount : timeoutDispatchCount g (stepEvent st (.timeout gp))
          ≤ timeoutDispatchCount g st + (if gp = g then 1 else 0) := by
        rw [h1]
        exact genTimeout_timeoutCount g gp _
      by_cases hgg : gp = g
      · subst hgg
        have hflag0 : jobFlag gp (stepEvent st (.timeout gp)) = 0 := by
          unfold jobFlag
          rw [hjobs, if_neg (List.Nodup.not_mem_erase hnd)]
        have hflag1 : jobFlag gp st = 1 := by
          unfold jobFlag
          rw [if_pos (List.elem_iff.mp hc)]
        rw [if_pos rfl] at hcount
        omega
      · have hflag : jobFlag g (stepEvent st (.timeout gp)) = jobFlag g st := by
          unfold jobFlag
          rw [hjobs]
          by_cases hm : g ∈ st.timeoutJobs
          · rw [if_pos ((List.mem_erase_of_ne (fun hcn => hgg hcn.symm)).mpr hm), if_pos hm]
          · rw [if_neg (fun hcn => hm (List.mem_of_mem_erase hcn)), if_neg hm]
        rw [if_neg hgg] at hcount
        omega
    · have h0 : stepEvent st (.timeout gp) = st := by
        show (if st.timeoutJobs.contains gp = true
            then generateSummaryAfterTimeoutForGroup gp { st with timeoutJobs := st.timeoutJobs.erase gp }
            else st) = st
        rw [if_neg hc]
      rw [h0]
      omega
  | setActive u b =>
    have hcount : timeoutDispatchCount g (stepEvent st (.setActive u b)) = timeoutDispatchCount g st := rfl
    have hflag : jobFlag g (stepEvent st (.setActive u b)) = jobFlag g st := rfl
    omega

/-- Trace bound: over any event sequence, the timeout dispatches for group `g`
plus the pending-job flag rise by at most the number of `start g` events. -/
theorem runTrace_timeout_bound (evs : List SchedEvent) :
    ∀ (st0 : SchedState) (g : Nat), st0.timeoutJobs.Nodup →
      timeoutDispatchCount g (runTrace st0 evs) + jobFlag g (runTrace st0 evs)
        ≤ timeoutDispatchCount g st0 + jobFlag g st0 + startCount g evs := by
  induction evs with
  | nil =>
    intro st0 g _
    have h0 : startCount g [] = 0 := rfl
    rw [h0, show runTrace st0 [] = st0 from rfl]
    omega
  | cons e evs ih =>
    intro st0 g hnd
    have h1 := stepEvent_timeout_bound st0 e g hnd
    have h2 := ih (stepEvent st0 e) g (stepEvent_jobs_nodup st0 e hnd)
    have h3 : startCount g (e :: evs)
        = (if (e == SchedEvent.start g) = true then 1 else 0) + startCount g evs := by
      unfold startCount
      rw [List.filter_cons]
      split
      · rw [List.length_cons]
        omega
      · omega
    rw [show runTrace st0 (e :: evs) = runTrace (stepEvent st0 e) evs from rfl, h3]
    omega

/-- C1 (amended): starting from a clean state (no pending job, empty dispatch
log), over any event sequence that starts group `g` at most once — that is,
within one cycle — the scheduled timeout callback triggers the summary
dispatch at most once: firing consumes the one-shot job, early completion
removes it, and a timeout with no pending job is a no-op.
`SummaryComposer.Dispatch` as a whole is nonetheless not at-most-once per
cycle, because the early-completion check re-fires on accepted responses
after resolution: see the counterexample, where the same trace carries a
second, response-triggered dispatch. -/
theorem timeout_dispatches_at_most_once_per_cycle (st0 : SchedState) (evs : List SchedEvent)
    (g : Nat) (hjobs : st0.timeoutJobs = []) (hdisp : st0.dispatches = [])
    (hstart : startCount g evs ≤ 1) :
    timeoutDispatchCount g (runTrace st0 evs) ≤ 1 := by
  have h := runTrace_timeout_bound evs st0 g (by rw [hjobs]; exact List.nodup_nil)
  have h0 : timeoutDispatchCount g st0 = 0 := by
    unfold timeoutDispatchCount
    rw [hdisp]
    rfl
  have h1 : jobFlag g st0 = 0 := by
    unfold jobFlag
    rw [hjobs]
    simp
  omega

/-- Witness for the amended C1: on the very double-dispatch trace of the
counterexample (one cycle of group 1), the timeout-triggered dispatches still
number at most one. -/
theorem timeout_once_witness :
    stAB.timeoutJobs = [] ∧ stAB.dispatches = [] ∧
    startCount 1 [.start 1, .message tgA planText none, .timeout 1, .message tgB planText none] ≤ 1 ∧
    timeoutDispatchCount 1 (runTrace stAB
      [.start 1, .message tgA planText none, .timeout 1, .message tgB planText none]) ≤ 1 :=
  ⟨rfl, rfl, by decide,
   timeout_dispatches_at_most_once_per_cycle stAB
     [.start 1, .message tgA planText none, .timeout 1, .message tgB planText none] 1
     rfl rfl (by decide)⟩

/-- The per-day reset commutes with the live-roster query of any group: it
touches none of the membership columns. -/
theorem liveRoster_map_reset_any (gp g : Nat) (users : List DbUser) :
    liveRoster (users.map (resetUserForDay gp)) g
      = (liveRoster users g).map (resetUserForDay gp) := by
  unfold liveRoster
  rw [List.filter_map]
  congr 1
  apply List.filter_congr
  intro u _
  simp only [Function.comp_apply]
  unfold resetUserForDay
  split <;> rfl

/-- A row update preserving the membership columns preserves emptiness of the
live roster. -/
theorem liveRoster_updateWhere_nil (p : DbUser → Bool) (f : DbUser → DbUser)
    (hf : ∀ v, (f v).group_id = v.group_id ∧ (f v).is_active = v.is_active ∧
      (f v).is_verified = v.is_verified ∧ (f v).is_group_member = v.is_group_member)
    (users : List DbUser) (g : Nat) (h : liveRoster users g = []) :
    liveRoster (updateWhere p f users) g = [] := by
  unfold liveRoster updateWhere at *
  rw [List.filter_map, List.map_eq_nil_iff]
  rw [show users.filter ((fun u => u.group_id == some g && u.is_active && u.is_verified
        && u.is_group_member) ∘ fun u => if p u then f u else u)
      = users.filter (fun u => u.group_id == some g && u.is_active && u.is_verified
        && u.is_group_member) from ?_]
  · exact h
  · apply List.filter_congr
    intro u _
    simp only [Function.comp_apply]
    split
    · rcases hf u with ⟨h1, h2, h3, h4⟩
      rw [h1, h2, h3, h4]
    · rfl

/-- Appending a dispatch of a different group leaves the group's dispatch
count unchanged. -/
theorem groupCount_append_other (g gp : Nat) (l : List DispatchRec) (users : List DbUser)
    (b : Bool) (hgg : gp ≠ g) :
    (List.filter (fun d => d.groupId == g) (l ++ [⟨gp, users, b⟩])).length
      = (List.filter (fun d => d.groupId == g) l).length := by
  rw [List.filter_append]
  have h0 : List.filter (fun d => d.groupId == g) [(⟨gp, users, b⟩ : DispatchRec)] = [] := by
    have hbeq : (gp == g) = false := beq_eq_false_iff_ne.mpr hgg
    simp [List.filter, hbeq]
  rw [h0, List.append_nil]

/-- If the live roster of `g` is empty, `process_user_response` keeps it empty,
dispatches nothing for `g` and never adds a job for `g`. -/
theorem processUserResponse_silent (s : TgUser) (t : Str) (st : SchedState) (g : Nat)
    (hro : liveRoster st.users g = []) :
    liveRoster (processUserResponse s t st).users g = [] ∧
    groupDispatchCount g (processUserResponse s t st) = groupDispatchCount g st ∧
    (g ∈ (processUserResponse s t st).timeoutJobs → g ∈ st.timeoutJobs) := by
  unfold processUserResponse
  cases hfind : st.users.find? (fun u => u.uid == some s.id) with
  | none => exact ⟨hro, rfl, fun h => h⟩
  | some dbUser =>
    dsimp only
    have hro1 : liveRoster (updateWhere (fun u => u.dbId == dbUser.dbId)
        (respStoreFn s t st dbUser) st.users) g = [] :=
      liveRoster_updateWhere_nil (fun u => u.dbId == dbUser.dbId) (respStoreFn s t st dbUser)
        (fun v => ⟨rfl, rfl, rfl, rfl⟩) st.users g hro
    cases hgid : dbUser.group_id with
    | none => exact ⟨hro1, rfl, fun h => h⟩
    | some gp =>
      dsimp only
      cases hfg : st.groups.find? (fun gr => gr.id == gp) with
      | none => exact ⟨hro1, rfl, fun h => h⟩
      | some gr =>
        dsimp only
        split
        next hcond =>
          by_cases hgg : gp = g
          · exfalso
            subst hgg
            rw [hro1] at hcond
            simp at hcond
          · refine ⟨hro1, ?_, fun h => List.mem_of_mem_erase h⟩
            unfold groupDispatchCount
            dsimp only
            exact groupCount_append_other g gp st.dispatches _ _ hgg
        next hcond => exact ⟨hro1, rfl, fun h => h⟩

/-- `_process_daily_plan` inherits the silent behaviour on an empty roster. -/
theorem processDailyPlan_silent (d : DbUser) (s : TgUser) (t : Str) (j : Option Str)
    (st : SchedState) (g : Nat) (hro : liveRoster st.users g = []) :
    liveRoster (processDailyPlan d s t j st).users g = [] ∧
    groupDispatchCount g (processDailyPlan d s t j st) = groupDispatchCount g st ∧
    (g ∈ (processDailyPlan d s t j st).timeoutJobs → g ∈ st.timeoutJobs) := by
  unfold processDailyPlan
  split
  · obtain ⟨h1, h2, h3⟩ := processUserResponse_silent s t st g hro
    exact ⟨liveRoster_updateWhere_nil (fun u => u.dbId == d.dbId)
        (fun u => { u with activation_token := none, response_retry_count := 0 })
        (fun v => ⟨rfl, rfl, rfl, rfl⟩) _ g h1, h2, h3⟩
  · split
    · exact ⟨liveRoster_updateWhere_nil (fun u => u.dbId == d.dbId)
        (fun u => { u with response_retry_count := u.response_retry_count + 1 })
        (fun v => ⟨rfl, rfl, rfl, rfl⟩) _ g hro, rfl, fun h => h⟩
    · split
      · exact ⟨liveRoster_updateWhere_nil (fun u => u.dbId == d.dbId)
          (fun u => { u with response_retry_count := u.response_retry_count + 1 })
          (fun v => ⟨rfl, rfl, rfl, rfl⟩) _ g hro, rfl, fun h => h⟩
      · obtain ⟨h1, h2, h3⟩ := processUserResponse_silent s t st g hro
        exact ⟨liveRoster_updateWhere_nil (fun u => u.dbId == d.dbId)
            (fun u => { u with response_retry_count := 0 })
            (fun v => ⟨rfl, rfl, rfl, rfl⟩) _ g h1, h2, h3⟩

/-- The inbound-message handler inherits the silent behaviour for any text
that is not a `/start` activation. -/
theorem handleUserMessage_silent (s : TgUser) (t : Str) (j : Option Str)
    (st : SchedState) (g : Nat) (hro : liveRoster st.users g = [])
    (hns : ((lit "/start").isPrefixOf t) = false) :
    liveRoster (handleUserMessageSync s t j st).users g = [] ∧
    groupDispatchCount g (handleUserMessageSync s t j st) = groupDispatchCount g st ∧
    (g ∈ (handleUserMessageSync s t j st).timeoutJobs → g ∈ st.timeoutJobs) := by
  unfold handleUserMessageSync
  split
  next hpre =>
    rw [hns] at hpre
    exact Bool.noConfusion hpre
  · cases hfind : st.users.find? (fun u => u.uid == some s.id) with
    | none => exact ⟨hro, rfl, fun h => h⟩
    | some u =>
      dsimp only
      split
      · exact ⟨hro, rfl, fun h => h⟩
      · split
        · refine ⟨liveRoster_updateWhere_nil _ _ ?_ _ g hro, rfl, fun h => h⟩
          intro v
          exact ⟨rfl, rfl, rfl, rfl⟩
        · refine ⟨?_, ?_, ?_⟩
          · refine (processDailyPlan_silent _ s t j _ g ?_).1
            refine liveRoster_updateWhere_nil _ _ ?_ st.users g hro
            intro v
            exact ⟨rfl, rfl, rfl, rfl⟩
          · refine (processDailyPlan_silent _ s t j _ g ?_).2.1
            refine liveRoster_updateWhere_nil _ _ ?_ st.users g hro
            intro v
            exact ⟨rfl, rfl, rfl, rfl⟩
          · refine (processDailyPlan_silent _ s t j _ g ?_).2.2
            refine liveRoster_updateWhere_nil _ _ ?_ st.users g hro
            intro v
            exact ⟨rfl, rfl, rfl, rfl⟩

/-- The `/change` handler inherits the silent behaviour. -/
theorem handleChange_silent (s : TgUser) (st : SchedState) (g : Nat)
    (hro : liveRoster st.users g = []) :
    liveRoster (handleChangeCommand s st).users g = [] ∧
    groupDispatchCount g (handleChangeCommand s st) = groupDispatchCount g st ∧
    (g ∈ (handleChangeCommand s st).timeoutJobs → g ∈ st.timeoutJobs) := by
  unfold handleChangeCommand
  cases hfind : st.users.find? (fun u => u.uid == some s.id) with
  | none => exact ⟨hro, rfl, fun h => h⟩
  | some u =>
    dsimp only
    split
    · exact ⟨hro, rfl, fun h => h⟩
    · split
      · exact ⟨hro, rfl, fun h => h⟩
      · split
        · exact ⟨hro, rfl, fun h => h⟩
        · exact ⟨liveRoster_updateWhere_nil (fun v => v.dbId == u.dbId)
            (fun v => { v with activation_token := some (lit "editing_mode") })
            (fun v => ⟨rfl, rfl, rfl, rfl⟩) _ g hro, rfl, fun h => h⟩

/-- The timeout handler never touches the user table. -/
theorem genTimeout_users (g : Nat) (s : SchedState) :
    (generateSummaryAfterTimeoutForGroup g s).users = s.users := by
  unfold generateSummaryAfterTimeoutForGroup
  cases hg : s.groups.find? (fun gr => gr.id == g && gr.is_active) with
  | none => rfl
  | some gr =>
    dsimp only
    split <;> rfl

/-- A timeout firing on an empty live roster is a complete no-op. -/
theorem genTimeout_empty (g : Nat) (s : SchedState) (h : liveRoster s.users g = []) :
    generateSummaryAfterTimeoutForGroup g s = s := by
  unfold generateSummaryAfterTimeoutForGroup
  cases hg : s.groups.find? (fun gr => gr.id == g && gr.is_active) with
  | none => rfl
  | some gr =>
    dsimp only
    rw [if_pos h]

/-- A timeout firing for another group leaves this group's dispatch count
unchanged. -/
theorem genTimeout_groupCount_other (g gp : Nat) (s : SchedState) (hgg : gp ≠ g) :
    groupDispatchCount g (generateSummaryAfterTimeoutForGroup gp s)
      = groupDispatchCount g s := by
  unfold generateSummaryAfterTimeoutForGroup
  cases hg : s.groups.find? (fun gr => gr.id == gp && gr.is_active) with
  | none => rfl
  | some gr =>
    dsimp only
    split
    · rfl
    · unfold groupDispatchCount
      dsimp only
      exact groupCount_append_other g gp s.dispatches _ _ hgg

/-- A cycle start keeps an empty live roster empty, dispatches nothing for the
group and never schedules a job for a group whose roster is empty. -/
theorem sendMorning_silent (gp : Nat) (st : SchedState) (g : Nat)
    (hro : liveRoster st.users g = []) :
    liveRoster (sendMorningQuestionsToGroup gp st).users g = [] ∧
    groupDispatchCount g (sendMorningQuestionsToGroup gp st) = groupDispatchCount g st ∧
    (g ∈ (sendMorningQuestionsToGroup gp st).timeoutJobs → g ∈ st.timeoutJobs) := by
  have hresg : liveRoster (st.users.map (resetUserForDay gp)) g = [] := by
    rw [liveRoster_map_reset_any, hro]
    rfl
  refine ⟨?_, ?_, ?_⟩
  · unfold sendMorningQuestionsToGroup
    cases hg : st.groups.find? (fun gr => gr.id == gp && gr.is_active) with
    | none => exact hro
    | some gr =>
      dsimp only
      split
      · exact hresg
      · exact hresg
  · unfold groupDispatchCount
    rw [sendMorning_dispatches]
  · unfold sendMorningQuestionsToGroup
    cases hg : st.groups.find? (fun gr => gr.id == gp && gr.is_active) with
    | none => exact fun h => h
    | some gr =>
      dsimp only
      split
      next hempt => exact fun h => h
      next hne =>
        intro h
        by_cases hgg : gp = g
        · exfalso
          subst hgg
          exact hne hresg
        · dsimp only at h
          split at h
          · exact h
          · rcases List.mem_append.mp h with h1 | h1
            · exact h1
            · exact absurd (List.mem_singleton.mp h1).symm hgg

/-- One event step of any kind except an external membership mutation keeps an
empty live roster empty, never dispatches for the group and never schedules its
job. -/
theorem stepEvent_silent (st : SchedState) (e : SchedEvent) (g : Nat)
    (hro : liveRoster st.users g = []) (hme : touchesMembership e = false) :
    liveRoster (stepEvent st e).users g = [] ∧
    groupDispatchCount g (stepEvent st e) = groupDispatchCount g st ∧
    (g ∈ (stepEvent st e).timeoutJobs → g ∈ st.timeoutJobs) := by
  cases e with
  | start gp => exact sendMorning_silent gp st g hro
  | message s t j => exact handleUserMessage_silent s t j st g hro hme
  | changeCmd s => exact handleChange_silent s st g hro
  | timeout gp =>
    simp only [stepEvent]
    by_cases hc : st.timeoutJobs.contains gp = true
    · rw [if_pos hc]
      refine ⟨?_, ?_, ?_⟩
      · rw [genTimeout_users]
        exact hro
      · by_cases hgg : gp = g
        · subst hgg
          rw [genTimeout_empty gp { st with timeoutJobs := st.timeoutJobs.erase gp } hro]
          rfl
        · exact genTimeout_groupCount_other g gp _ hgg
      · intro h
        rw [genTimeout_jobs] at h
        exact List.mem_of_mem_erase h
    · rw [if_neg hc]
      exact ⟨hro, rfl, fun h => h⟩
  | setActive u b => simp [touchesMembership] at hme

/-- Over a whole trace without external membership mutations, an initially
empty live roster stays empty, the group's dispatch count never grows and its
job never appears. -/
theorem runTrace_silent (evs : List SchedEvent) :
    ∀ (st : SchedState) (g : Nat), liveRoster st.users g = [] →
      (∀ e ∈ evs, touchesMembership e = false) →
      liveRoster (runTrace st evs).users g = [] ∧
      groupDispatchCount g (runTrace st evs) = groupDispatchCount g st ∧
      (g ∈ (runTrace st evs).timeoutJobs → g ∈ st.timeoutJobs) := by
  induction evs with
  | nil =>
    intro st g hro _
    exact ⟨hro, rfl, fun h => h⟩
  | cons e tl ih =>
    intro st g hro hmem
    have hme : touchesMembership e = false := hmem e (List.mem_cons_self e tl)
    have hmt : ∀ e2 ∈ tl, touchesMembership e2 = false :=
      fun e2 h2 => hmem e2 (List.mem_cons_of_mem e h2)
    obtain ⟨h1, h2, h3⟩ := stepEvent_silent st e g hro hme
    obtain ⟨g1, g2, g3⟩ := ih (stepEvent st e) g h1 hmt
    exact ⟨g1, g2.trans h2, fun h => h3 (g3 h)⟩

/-- A cycle start on an empty live roster only commits the day reset: prompts,
snapshots, jobs and dispatches are untouched and the roster stays empty. -/
theorem sendMorning_empty (g : Nat) (st : SchedState) (hro : liveRoster st.users g = []) :
    (sendMorningQuestionsToGroup g st).prompts = st.prompts ∧
    (sendMorningQuestionsToGroup g st).timeoutJobs = st.timeoutJobs ∧
    (sendMorningQuestionsToGroup g st).snapshots = st.snapshots ∧
    (sendMorningQuestionsToGroup g st).dispatches = st.dispatches ∧
    liveRoster (sendMorningQuestionsToGroup g st).users g = [] := by
  have hroster : liveRoster (st.users.map (resetUserForDay g)) g = [] := by
    rw [liveRoster_map_reset_any, hro]
    rfl
  cases hg : st.groups.find? (fun gr => gr.id == g && gr.is_active) with
  | none =>
    have hE : sendMorningQuestionsToGroup g st = st := by
      unfold sendMorningQuestionsToGroup
      rw [hg]
    rw [hE]
    exact ⟨rfl, rfl, rfl, rfl, hro⟩
  | some gr =>
    have hE : sendMorningQuestionsToGroup g st
        = { st with users := st.users.map (resetUserForDay g) } := by
      unfold sendMorningQuestionsToGroup
      rw [hg]
      simp only [hroster, if_true]
    rw [hE]
    exact ⟨rfl, rfl, rfl, rfl, hroster⟩

/-- C4 (amended): if the live roster of the group is empty at `Start`, the
start event sends no prompts, records no roster snapshot and schedules no
timeout job (its only effect is the committed day reset); and over any
continuation of the cycle by inbound non-`/start` texts, `/change` commands,
further starts and timer firings — that is, absent the two membership
mutations `touchesMembership` captures: an `is_active` toggle by the external
admin layer and a `/start` activation, which can join a fresh verified, active
team member to the group mid-cycle — no summary is ever dispatched for the
group and its timeout job never becomes scheduled.  The original claim's
unconditional "no dispatch occurs" is refuted by
`activation_dispatch_for_empty_roster_cycle`. -/
theorem empty_roster_cycle_silent (st : SchedState) (g : Nat) (evs : List SchedEvent)
    (hro : liveRoster st.users g = [])
    (hmem : ∀ e ∈ evs, touchesMembership e = false) :
    (stepEvent st (.start g)).prompts = st.prompts ∧
    (stepEvent st (.start g)).snapshots = st.snapshots ∧
    (stepEvent st (.start g)).timeoutJobs = st.timeoutJobs ∧
    groupDispatchCount g (runTrace (stepEvent st (.start g)) evs) = groupDispatchCount g st ∧
    (g ∉ st.timeoutJobs → g ∉ (runTrace (stepEvent st (.start g)) evs).timeoutJobs) := by
  obtain ⟨hp, hj, hs, hd, hro1⟩ := sendMorning_empty g st hro
  obtain ⟨r1, r2, r3⟩ := runTrace_silent evs (stepEvent st (.start g)) g hro1 hmem
  have hj2 : (stepEvent st (SchedEvent.start g)).timeoutJobs = st.timeoutJobs := hj
  have hd2 : (stepEvent st (SchedEvent.start g)).dispatches = st.dispatches := hd
  refine ⟨hp, hs, hj2, ?_, ?_⟩
  · rw [r2]
    unfold groupDispatchCount
    rw [hd2]
  · intro hnot hin
    have h3 := r3 hin
    rw [hj2] at h3
    exact hnot h3

/-- Witness for C4: group 1 is active but its only linked user is not a team
member, so the roster is empty; the start schedules no job, and the cycle
consisting of that user messaging a plan and the timer firing dispatches
nothing. -/
theorem empty_roster_cycle_witness :
    liveRoster stC.users 1 = [] ∧
    (∀ e ∈ [SchedEvent.message tgC planText none, SchedEvent.timeout 1],
      touchesMembership e = false) ∧
    (stepEvent stC (.start 1)).timeoutJobs = stC.timeoutJobs ∧
    groupDispatchCount 1 (runTrace (stepEvent stC (.start 1))
      [SchedEvent.message tgC planText none, SchedEvent.timeout 1]) = groupDispatchCount 1 stC :=
  ⟨by decide, by decide,
    (empty_roster_cycle_silent stC 1 [SchedEvent.message tgC planText none, SchedEvent.timeout 1]
      (by decide) (by decide)).2.2.1,
    (empty_roster_cycle_silent stC 1 [SchedEvent.message tgC planText none, SchedEvent.timeout 1]
      (by decide) (by decide)).2.2.2.1⟩

/-- Counterexample to C4 as stated: group 1 is active with activation token
`tok1` and its only linked user is not a team member, so the roster at `Start`
is empty — no prompt, no snapshot, no timeout job.  Yet the cycle still
produces a summary dispatch without any admin-layer event: a fresh sender
texts `/start tok1`, which creates them as a verified, active team member of
group 1 (bot_service.py:371-378, `is_active` defaulting to True), and their
following plan text is accepted (fail-open judge), upon which the live
early-completion check finds the one-member roster complete and dispatches. -/
theorem activation_dispatch_for_empty_roster_cycle :
    liveRoster stC.users 1 = [] ∧
    (stepEvent stC (.start 1)).prompts = [] ∧
    (stepEvent stC (.start 1)).timeoutJobs = [] ∧
    (stepEvent stC (.start 1)).snapshots = [] ∧
    groupDispatchCount 1 (runTrace (stepEvent stC (.start 1))
      [.message tgNew (lit "/start tok1") none, .message tgNew planText none]) = 1 := by
  decide
